import Mathlib

/-!
Shallow embedding of the SLA tracking core of the intercom-slack-fin-handoff
repository, together with proofs of the specification claims.

Sources embedded:
* `src/business-hours.js` — business-hours calendar, `isBusinessHours`,
  `getNextBusinessHoursStart`, `findUTCTimeForTimezoneTime`.
* `src/unnamed/part_002` (`sla-monitor-enhanced.js`) — `getSLADuration`,
  `getAssignmentTimestamp`, `isTicketPaused`, `calculateDeadline`,
  `hasUnwarrantedSLATag`, `getTicketTags`, `checkSLAStatus`,
  `getAllSLATickets`, `getSLAStats`.

Modelling conventions:
* JavaScript timestamps are modelled as `Nat` seconds (the monitor works in
  `Math.floor(Date.now() / 1000)` seconds); the business-hours module, whose
  `Date` values may be decremented below the reference instant by the
  candidate search, uses `Int` seconds.
* `undefined`/`null` fields are `Option`; JS truthiness of strings treats
  `""` as falsy and of numbers treats `0` as falsy, captured by `truthyStr`
  and `truthyNat`.
* The `Intl.DateTimeFormat` civil-rendering capability is a function
  parameter; a UTC renderer (`utcClock` / `utcFull`, with the Gregorian
  date computation `civilFromDays`) instantiates it for the concrete cases.
* The two JSON-file-backed caches are association lists with upsert /
  delete operations; network dispatch (`sendBlockKitMessage`) is a boolean
  outcome parameter.
* The `SLA_DURATIONS` environment string is modelled after splitting on
  `,` and `:`: a list of (key, seconds) pairs (`parseInt` results as `Nat`).
-/

namespace SLACore

/-! ### JS truthiness helpers -/

/-- Truthiness of an optional JS string: `undefined`, `null` and `""` are falsy. -/
def truthyStr : Option String → Bool
  | none => false
  | some s => !(s == "")

/-- Truthiness of an optional JS number: `undefined`, `null` and `0` are falsy. -/
def truthyNat : Option Nat → Bool
  | none => false
  | some n => !(n == 0)

/-- JS `a || b` on optional strings. -/
def jsOrStr (a b : Option String) : Option String :=
  if truthyStr a then a else b

/-- JS `x || null` on an optional string (empty string collapses to null). -/
def jsNullifyStr (a : Option String) : Option String :=
  if truthyStr a then a else none

/-- JS `x || null` on an optional number (zero collapses to null). -/
def jsNullifyNat (a : Option Nat) : Option Nat :=
  if truthyNat a then a else none

/-- JS `v || dflt` where `v` is an object-lookup result and `0`/`NaN` are falsy. -/
def jsFalsyNat (v : Option Nat) (dflt : Nat) : Nat :=
  match v with
  | some n => if n == 0 then dflt else n
  | none => dflt

/-- Whether `pre` is a prefix of `l` (on character lists). -/
def charsLeads : List Char → List Char → Bool
  | [], _ => true
  | _ :: _, [] => false
  | p :: ps, c :: cs => p == c && charsLeads ps cs

/-- Whether `pat` occurs inside `hay` (on character lists). -/
def charsContains (hay pat : List Char) : Bool :=
  match hay with
  | [] => pat.isEmpty
  | _ :: t => charsLeads pat hay || charsContains t pat

/-- JS `String.prototype.includes`. -/
def strIncludes (s pat : String) : Bool :=
  charsContains s.data pat.data

/-- JS `String.prototype.toUpperCase` (character-wise). -/
def strUpper (s : String) : String :=
  ⟨s.data.map Char.toUpper⟩

/-- JS `String.prototype.toLowerCase` (character-wise). -/
def strLower (s : String) : String :=
  ⟨s.data.map Char.toLower⟩

/-- JS `String.prototype.trim`. -/
def strTrim (s : String) : String :=
  ⟨((s.data.dropWhile Char.isWhitespace).reverse.dropWhile Char.isWhitespace).reverse⟩

/-! ### Business-hours configuration (`src/business-hours.js`, lines 5-17, 255-267)

The `BUSINESS_HOURS_START` / `BUSINESS_HOURS_END` environment strings are
`"HH:MM"`; `parseTime` splits them into hour/minute pairs, which we store
directly.  `businessDays` is the parsed `BUSINESS_HOURS_DAYS` list
(0 = Sunday … 6 = Saturday); `enabled` is `BUSINESS_HOURS_ENABLED !== 'false'`. -/

structure BHConfig where
  enabled : Bool
  startHours : Nat
  startMinutes : Nat
  endHours : Nat
  endMinutes : Nat
  businessDays : List Nat
deriving DecidableEq

/-- The calendar from the spec's test properties: Mon-Fri, 09:00-17:00
(the code's defaults), rendered in UTC. -/
def stdCal : BHConfig :=
  { enabled := true, startHours := 9, startMinutes := 0,
    endHours := 17, endMinutes := 0, businessDays := [1, 2, 3, 4, 5] }

/-- The weekday-name-to-number map of `business-hours.js` lines 56-64. -/
def dayMap : String → Option Nat
  | "Sunday" => some 0
  | "Monday" => some 1
  | "Tuesday" => some 2
  | "Wednesday" => some 3
  | "Thursday" => some 4
  | "Friday" => some 5
  | "Saturday" => some 6
  | _ => none

/-- Weekday names as produced by `Intl.DateTimeFormat` with `weekday: 'long'`. -/
def weekdayName : Nat → String
  | 0 => "Sunday"
  | 1 => "Monday"
  | 2 => "Tuesday"
  | 3 => "Wednesday"
  | 4 => "Thursday"
  | 5 => "Friday"
  | 6 => "Saturday"
  | _ => ""

/-- The fields extracted from the formatter by `isBusinessHours`
(`hour`, `minute`, `weekday: 'long'`). -/
structure RenderedClock where
  hour : Nat
  minute : Nat
  weekday : String
deriving DecidableEq

/-- Embedding of `isBusinessHours` (`business-hours.js` lines 34-88).  The
civil rendering of the checked instant in the configured timezone is passed
as `rendered`; `none` models the formatter throwing (caught at line 83,
fail open).  A weekday name outside `dayMap` gives `dayOfWeek = undefined`
and `businessDays.includes(undefined)` is `false`. -/
def isBusinessHours (cfg : BHConfig) (rendered : Option RenderedClock) : Bool :=
  if !cfg.enabled then
    true
  else
    match rendered with
    | none => true
    | some r =>
      match dayMap r.weekday with
      | none => false
      | some dayOfWeek =>
        if !(cfg.businessDays.contains dayOfWeek) then
          false
        else
          let currentMinutes := r.hour * 60 + r.minute
          let startMinutes := cfg.startHours * 60 + cfg.startMinutes
          let endMinutes := cfg.endHours * 60 + cfg.endMinutes
          decide (startMinutes ≤ currentMinutes) && decide (currentMinutes < endMinutes)

/-- UTC civil rendering of an epoch instant (seconds) at the granularity used
by `isBusinessHours`: clock time and weekday (1970-01-01 was a Thursday). -/
def utcClock (t : Nat) : RenderedClock :=
  { hour := t % 86400 / 3600
    minute := t % 3600 / 60
    weekday := weekdayName ((t / 86400 + 4) % 7) }

/-! ### Next business-hours start (`business-hours.js` lines 94-249)

`getNextBusinessHoursStart` and `findUTCTimeForTimezoneTime` consume the
`Intl.DateTimeFormat` capability for the configured timezone; we pass it as
a function `fmt : Int → RenderedFull` producing the formatter parts
(year / month / day / hour / minute / long weekday).  Instants are `Int`
seconds since the epoch (the JS code works on millisecond `Date`s and only
ever sets whole minutes; `setUTCHours(h, m, 0, 0)` on a date `d` becomes
`dayStart d + h * 3600 + m * 60` where `dayStart d = d - d % 86400` with
floor semantics). -/

structure RenderedFull where
  year : Int
  month : Nat
  day : Nat
  hour : Nat
  minute : Nat
  weekday : String
deriving DecidableEq

/-- Start of the UTC day of an instant (what `setUTCHours` keeps fixed). -/
def dayStart (t : Int) : Int := t - t % 86400

/-- First hit of `f` on the `n` indices `i, i+1, …, i+n-1`, in order — the
shape of every bounded `for` search loop in `business-hours.js`. -/
def firstHitAux {α : Type} (f : Nat → Option α) : Nat → Nat → Option α
  | _, 0 => none
  | i, n + 1 =>
    match f i with
    | some a => some a
    | none => firstHitAux f (i + 1) n

/-- Phase 1 of `findUTCTimeForTimezoneTime` (`business-hours.js` lines
181-196): try each whole-hour offset in `[-12, +12]`, checking for an exact
year/month/day/hour/minute match against the reference date's rendering. -/
def findUTCPhase1 (fmt : Int → RenderedFull)
    (referenceDate : Int) (targetHour targetMinute : Nat) : Option Int :=
  firstHitAux (fun i =>
    let offsetHours : Int := (i : Int) - 12
    let testDate := dayStart referenceDate +
      ((targetHour : Int) + offsetHours) * 3600 + (targetMinute : Int) * 60
    let p := fmt testDate
    if p.year == (fmt referenceDate).year && p.month == (fmt referenceDate).month &&
       p.day == (fmt referenceDate).day &&
       p.hour == targetHour && p.minute == targetMinute then
      some testDate
    else none) 0 25

/-- Phase 2 (lines 198-222): retry around the estimated offset, comparing
only day-of-month, hour and minute. -/
def findUTCPhase2 (fmt : Int → RenderedFull)
    (referenceDate : Int) (targetHour targetMinute : Nat) : Option Int :=
  let estimatedOffset : Int :=
    ((fmt referenceDate).hour : Int) - referenceDate % 86400 / 3600
  firstHitAux (fun i =>
    let offsetHours : Int := estimatedOffset - 2 + (i : Int)
    let testDate := dayStart referenceDate +
      ((targetHour : Int) + offsetHours) * 3600 + (targetMinute : Int) * 60
    let p := fmt testDate
    if p.day == (fmt referenceDate).day && p.hour == targetHour &&
       p.minute == targetMinute then
      some testDate
    else none) 0 5

/-- Phase 3 (lines 224-245): sweep a full day in quarter-hour steps on the
reference day, checking the rendering for a full match against the target
date and clock time. -/
def findUTCPhase3 (fmt : Int → RenderedFull)
    (referenceDate : Int) (targetHour targetMinute : Nat) : Option Int :=
  firstHitAux (fun i =>
    let hours := i / 4
    let minutes := (i % 4) * 15
    let testDate := dayStart referenceDate +
      (hours : Int) * 3600 + (minutes : Int) * 60
    let p := fmt testDate
    if p.year == (fmt referenceDate).year && p.month == (fmt referenceDate).month &&
       p.day == (fmt referenceDate).day &&
       p.hour == targetHour && p.minute == targetMinute then
      some testDate
    else none) 0 96

/-- Embedding of `findUTCTimeForTimezoneTime` (`business-hours.js` lines
153-249).  Phase 1 tries each whole-hour offset in `[-12, +12]`; phase 2
retries around the estimated offset comparing only day-of-month, hour and
minute; phase 3 sweeps a full day in quarter-hour steps; the ultimate
fallback is `referenceDate + 12h`. -/
def findUTCTimeForTimezoneTime (fmt : Int → RenderedFull)
    (referenceDate : Int) (targetHour targetMinute : Nat) : Int :=
  match findUTCPhase1 fmt referenceDate targetHour targetMinute with
  | some t => t
  | none =>
    match findUTCPhase2 fmt referenceDate targetHour targetMinute with
    | some t => t
    | none =>
      match findUTCPhase3 fmt referenceDate targetHour targetMinute with
      | some t => t
      | none => referenceDate + 12 * 3600

/-- Embedding of `getNextBusinessHoursStart` (`business-hours.js` lines
94-143).  If today is a business day and the current civil clock time is
before the start time, the answer is start time on the same civil date;
otherwise scan up to 13 days ahead (`for daysAhead = 1; daysAhead < 14`)
for the next business-day date; if nothing matches, fall back to
`now + 24h`. -/
def getNextBusinessHoursStart (cfg : BHConfig) (fmt : Int → RenderedFull)
    (now : Int) : Int :=
  let currentParts := fmt now
  let currentTzMinutes := currentParts.hour * 60 + currentParts.minute
  let startMinutes := cfg.startHours * 60 + cfg.startMinutes
  let currentDayOfWeek := dayMap currentParts.weekday
  let todayIsBusinessDay :=
    match currentDayOfWeek with
    | some d => cfg.businessDays.contains d
    | none => false
  if todayIsBusinessDay && decide (currentTzMinutes < startMinutes) then
    findUTCTimeForTimezoneTime fmt now cfg.startHours cfg.startMinutes
  else
    let scan :=
      firstHitAux (fun i =>
        let futureDate := now + ((i : Int) + 1) * 86400
        let p := fmt futureDate
        match dayMap p.weekday with
        | some d => if cfg.businessDays.contains d then some futureDate else none
        | none => none) 0 13
    match scan with
    | some futureDate =>
      findUTCTimeForTimezoneTime fmt futureDate cfg.startHours cfg.startMinutes
    | none => now + 86400

/-- Gregorian civil date from days since 1970-01-01 (what
`Intl.DateTimeFormat` renders for the UTC timezone); the standard
era/year-of-era computation. -/
def civilFromDays (z : Int) : Int × Nat × Nat :=
  let z' := z + 719468
  let era := z' / 146097
  let doe := (z' - era * 146097).toNat
  let yoe := (doe - doe / 1460 + doe / 36524 - doe / 146096) / 365
  let doy := doe - (365 * yoe + yoe / 4 - yoe / 100)
  let mp := (5 * doy + 2) / 153
  let d := doy - (153 * mp + 2) / 5 + 1
  let m := if mp < 10 then mp + 3 else mp - 9
  let y : Int := (yoe : Int) + era * 400 + (if m ≤ 2 then 1 else 0)
  (y, m, d)

/-- Full UTC civil rendering of an instant, over an arbitrary encoding
`dateOf` of the calendar date of an epoch day (instantiated with
`civilFromDays` for the true Gregorian rendering). -/
def utcFull (dateOf : Int → Int × Nat × Nat) (t : Int) : RenderedFull :=
  let day := t / 86400
  let secs := (t % 86400).toNat
  { year := (dateOf day).1
    month := (dateOf day).2.1
    day := (dateOf day).2.2
    hour := secs / 3600
    minute := secs % 3600 / 60
    weekday := weekdayName (((day + 4) % 7).toNat) }

/-! ### Ticket snapshot data model (`src/unnamed/part_002`)

The fields of the Intercom ticket object that the monitor reads. -/

structure Statistics where
  first_assignment_at : Option Nat := none
  last_assignment_at : Option Nat := none
deriving DecidableEq

structure SLAApplied where
  sla_name : Option String := none
  sla_status : Option String := none
deriving DecidableEq

structure LinkedObject where
  type : String
  sla_applied : Option SLAApplied := none
deriving DecidableEq

structure AdminAssignee where
  name : Option String := none
  email : Option String := none
deriving DecidableEq

structure TicketStateObj where
  category : Option String := none
  internal_label : Option String := none
deriving DecidableEq

/-- One element of a ticket's tag collection: either a plain string or an
object with `name` / `id` fields. -/
inductive TagItem
  | str (s : String)
  | obj (name : Option String) (id : Option String)
deriving DecidableEq

/-- The shape of `ticket.tags` / `ticket.tag_list`: a plain array, a nested
`{ tags: [...] }` or `{ data: [...] }` object, or some other non-array
object. -/
inductive TagsField
  | arr (items : List TagItem)
  | nestedTags (items : List TagItem)
  | nestedData (items : List TagItem)
  | otherObj
deriving DecidableEq

structure Ticket where
  id : Option String := none
  ticket_id : Option String := none
  sla_applied : Option SLAApplied := none
  /-- `ticket.linked_objects?.data` -/
  linked_objects : Option (List LinkedObject) := none
  statistics : Option Statistics := none
  admin_assignee_id : Option Nat := none
  admin_assignee : Option AdminAssignee := none
  updated_at : Option Nat := none
  created_at : Option Nat := none
  snoozed_until : Option Nat := none
  ticket_state : Option TicketStateObj := none
  state : Option String := none
  /-- `ticket.open` -/
  isOpen : Bool := false
  subject : Option String := none
  name : Option String := none
  /-- `ticket.ticket_attributes?._default_title_` -/
  default_title : Option String := none
  tags : Option TagsField := none
  tag_list : Option TagsField := none
deriving DecidableEq

/-- Process environment of the monitor: `SLA_ALERT_CHANNEL`, the parsed
`SLA_DURATIONS` items (split on `,` and `:`), and `BUSINESS_HOURS_ENABLED`. -/
structure Env where
  slaChannel : Option String
  slaDurations : Option (List (String × Nat))
  bhConfig : BHConfig
deriving DecidableEq

/-! ### Duration policy resolver (`part_002` lines 240-280) -/

/-- JS object built by `durations[key.trim().toUpperCase()] = value`: later
assignments to the same key overwrite earlier ones, so look from the right. -/
def objGet (items : List (String × Nat)) (key : String) : Option Nat :=
  (items.reverse.find? (fun p => p.1 == key)).map (·.2)

/-- Embedding of `getSLADuration` (`part_002` lines 240-280).  With
`SLA_DURATIONS` set, the uppercase name is matched against the keyword
buckets with configured overrides (`durations.X || default`); otherwise, or
when no keyword matches inside that block, the lowercase default chain
runs, ending in the 5-minute fallback. -/
def getSLADuration (customDurations : Option (List (String × Nat)))
    (slaApplied : SLAApplied) : Nat :=
  let fromCustom : Option Nat :=
    match customDurations with
    | none => none
    | some items =>
      let durations := items.map (fun p => (strUpper (strTrim p.1), p.2))
      let slaName := (slaApplied.sla_name.map strUpper).getD ""
      if strIncludes slaName "FIRST RESPONSE" || strIncludes slaName "FRT" then
        some (jsFalsyNat (objGet durations "FRT") (5 * 60))
      else if strIncludes slaName "NEXT RESPONSE" || strIncludes slaName "NRT" then
        some (jsFalsyNat (objGet durations "NRT") (5 * 60))
      else if strIncludes slaName "CLOSE" || strIncludes slaName "TTC" then
        some (jsFalsyNat (objGet durations "TTC") (24 * 60 * 60))
      else none
  match fromCustom with
  | some d => d
  | none =>
    let slaName := (slaApplied.sla_name.map strLower).getD ""
    if strIncludes slaName "first response" || strIncludes slaName "frt" then
      5 * 60
    else if strIncludes slaName "next response" || strIncludes slaName "nrt" then
      5 * 60
    else if strIncludes slaName "close" || strIncludes slaName "ttc" then
      24 * 60 * 60
    else
      5 * 60

/-! ### Assignment timestamp, pause state, deadline (`part_002` lines 163-298) -/

/-- Embedding of `getAssignmentTimestamp` (`part_002` lines 216-233). -/
def getAssignmentTimestamp (t : Ticket) : Option Nat :=
  let firstA := t.statistics.bind (·.first_assignment_at)
  let lastA := t.statistics.bind (·.last_assignment_at)
  if truthyNat firstA then firstA
  else if truthyNat lastA then lastA
  else if truthyNat t.admin_assignee_id && truthyNat t.updated_at then t.updated_at
  else none

/-- Embedding of `isTicketPaused` (`part_002` lines 192-209): still snoozed,
or ticket-state category (falling back to `ticket.state`) equal to
`waiting_on_customer`. -/
def isTicketPaused (t : Ticket) (now : Nat) : Bool :=
  (match t.snoozed_until with
   | some su => !(su == 0) && decide (now < su)
   | none => false) ||
  (jsOrStr (t.ticket_state.bind (·.category)) t.state == some "waiting_on_customer")

/-- Embedding of `calculateDeadline` (`part_002` lines 289-298): both the
disabled and the enabled business-hours branch return
`assignedAt + slaDuration`. -/
def calculateDeadline (assignedAt slaDuration : Nat) (config : BHConfig) : Nat :=
  if !config.enabled then
    assignedAt + slaDuration
  else
    assignedAt + slaDuration

/-! ### Tags (`part_002` lines 305-347) -/

/-- Name of a tag entry: a string is itself, an object is `name || id || ''`. -/
def tagItemName : TagItem → String
  | .str s => s
  | .obj name id => (jsOrStr (jsOrStr name id) (some "")).getD ""

/-- Embedding of `hasUnwarrantedSLATag` (`part_002` lines 305-318): only a
plain array shape is scanned; matching is case-insensitive substring. -/
def hasUnwarrantedSLATag (t : Ticket) : Bool :=
  let tags :=
    match t.tags with
    | some f => f
    | none => match t.tag_list with
      | some f => f
      | none => .arr []
  match tags with
  | .arr items =>
    items.any (fun tag => strIncludes (strLower (tagItemName tag)) "unwarranted sla")
  | _ => false

/-- Embedding of `getTicketTags` (`part_002` lines 326-347): unwrap the
nested `tags.tags` / `tags.data` shapes, map entries to names and drop
empty strings. -/
def getTicketTags (t : Ticket) : List String :=
  let tags :=
    match t.tags with
    | some f => f
    | none => match t.tag_list with
      | some f => f
      | none => .arr []
  let items :=
    match tags with
    | .arr items => items
    | .nestedTags items => items
    | .nestedData items => items
    | .otherObj => []
  (items.map tagItemName).filter (fun s => !(s == ""))

/-! ### SLA tracking store (`part_002` lines 23-27, persisted records)

The in-memory cache `slaStateCache : Map ticketId → state` (write-through to
`sla-state.json`) is an association list with upsert and delete. -/

structure AlertEntry where
  type : String
  timestamp : Nat
  deadline : Option Nat
  status : String
deriving DecidableEq

/-- The per-ticket tracking record written by `checkSLAStatus`
(`part_002` lines 425-441). -/
structure SLAState where
  sla_status : String
  sla_name : String
  assigned_at : Option Nat
  sla_duration : Nat
  deadline : Option Nat
  is_paused : Bool
  updated_at : Nat
  alert_history : List AlertEntry
  tags : List String
  has_unwarranted_tag : Bool
  assignee_name : Option String
  assignee_email : Option String
  ticket_subject : Option String
  ticket_state : Option String
  ticket_created_at : Option Nat
deriving DecidableEq

abbrev Store := List (String × SLAState)

def storeGet (s : Store) (k : String) : Option SLAState :=
  (s.find? (fun p => p.1 == k)).map (·.2)

/-- `Map.set`: replace the binding when the key exists, append otherwise. -/
def storeSet (s : Store) (k : String) (v : SLAState) : Store :=
  if (s.find? (fun p => p.1 == k)).isSome then
    s.map (fun p => if p.1 == k then (k, v) else p)
  else
    s ++ [(k, v)]

/-- `Map.delete`. -/
def storeDelete (s : Store) (k : String) : Store :=
  s.filter (fun p => !(p.1 == k))

/-- The assignment-tracking record (`part_002` lines 125-132), kept in the
separate `assignmentTrackingCache` table. -/
structure AssignmentRecord where
  ticket_id : String
  assignee_name : Option String := none
  assignee_email : Option String := none
  assigned_at : Nat := 0
  ticket_created_at : Option Nat := none
  tracked_at : Nat := 0
deriving DecidableEq

abbrev AssignStore := List (String × AssignmentRecord)

/-! ### Violation detection and record refresh (`part_002` lines 354-504) -/

/-- SLA extraction of `checkSLAStatus` lines 361-376: the ticket's own
`sla_applied`, falling back to the first linked conversation that carries
one. -/
def effectiveSlaApplied (t : Ticket) : Option SLAApplied :=
  match t.sla_applied with
  | some s => some s
  | none =>
    match t.linked_objects with
    | some objs =>
      (objs.find? (fun l => l.type == "conversation" && l.sla_applied.isSome)).bind
        (·.sla_applied)
    | none => none

/-- Deadline computation of `checkSLAStatus` lines 406-410 (guarded by JS
truthiness of `assignedAt` and `slaDuration`). -/
def deadlineOf (env : Env) (t : Ticket) (sla : SLAApplied) : Option Nat :=
  let assignedAt := getAssignmentTimestamp t
  let slaDuration := getSLADuration env.slaDurations sla
  if truthyNat assignedAt && !(slaDuration == 0) then
    some (calculateDeadline (assignedAt.getD 0) slaDuration env.bhConfig)
  else none

/-- The refreshed tracking record (`stateUpdate`, `checkSLAStatus` lines
412-441), carrying the denormalized ticket metadata and the prior alert
history. -/
def stateUpdateOf (env : Env) (now : Nat) (t : Ticket) (sla : SLAApplied)
    (history : List AlertEntry) : SLAState :=
  { sla_status := sla.sla_status.getD ""
    sla_name := (jsOrStr sla.sla_name (some "Unknown SLA")).getD ""
    assigned_at := getAssignmentTimestamp t
    sla_duration := getSLADuration env.slaDurations sla
    deadline := deadlineOf env t sla
    is_paused := isTicketPaused t now
    updated_at := now
    alert_history := history
    tags := getTicketTags t
    has_unwarranted_tag := hasUnwarrantedSLATag t
    assignee_name := jsNullifyStr (t.admin_assignee.bind (·.name))
    assignee_email := jsNullifyStr (t.admin_assignee.bind (·.email))
    ticket_subject := jsNullifyStr (jsOrStr (jsOrStr t.subject t.name) t.default_title)
    ticket_state := jsOrStr (t.ticket_state.bind (·.internal_label))
      (some (if t.isOpen then "open" else "closed"))
    ticket_created_at := jsNullifyNat t.created_at }

/-- Violation rules of `checkSLAStatus` lines 443-469: rule A (authoritative
`missed` status, deduplicated on an existing `status_missed`/`missed`
entry) then rule B (proactive deadline overrun while `active` and not
paused, deduplicated on an existing `deadline_violation` entry with the
same deadline).  Returns `(violationType, shouldAlert)`. -/
def detectViolation (currentStatus : String) (isPaused : Bool)
    (deadline : Option Nat) (now : Nat) (history : List AlertEntry) :
    Option String × Bool :=
  let afterA : Option String × Bool :=
    if currentStatus == "missed" &&
       !(history.any fun a => a.type == "status_missed" && a.status == "missed") then
      (some "status_missed", true)
    else
      (none, false)
  if !isPaused && currentStatus == "active" && truthyNat deadline &&
     decide (deadline.getD 0 < now) then
    if !(history.any fun a =>
        a.type == "deadline_violation" && a.deadline == deadline) then
      (some "deadline_violation", true)
    else afterA
  else afterA

/-- The alert entry pushed on send success (`checkSLAStatus` lines 481-486). -/
def alertEntryOf (violationType : Option String) (now : Nat)
    (deadline : Option Nat) (currentStatus : String) : AlertEntry :=
  { type := violationType.getD ""
    timestamp := now
    deadline := deadline
    status := currentStatus }

structure CheckResult where
  alerted : Bool
  violationType : Option String
  deadline : Option Nat
deriving DecidableEq

/-- The no-op result `{ alerted: false, violationType: null, deadline: null }`. -/
def noViolation : CheckResult :=
  { alerted := false, violationType := none, deadline := none }

/-- The alert history of the stored record of a ticket
(`previousState?.alert_history || []`, `checkSLAStatus` lines 403 and 433). -/
def histOf (s : Store) (k : String) : List AlertEntry :=
  ((storeGet s k).map (·.alert_history)).getD []

/-- Embedding of `checkSLAStatus` (`part_002` lines 354-504) as a function of
the process environment, the current time, the outcome of the Slack
dispatch (`sendBlockKitMessage`, `false` covering both a failed send and a
thrown error, which line 494 catches), the ticket snapshot, and the SLA
tracking store.  Returns the `{ alerted, violationType, deadline }` result
and the updated store. -/
def checkSLAStatus (env : Env) (now : Nat) (dispatchOk : Bool)
    (ticket : Ticket) (store : Store) : CheckResult × Store :=
  let ticketId? := jsOrStr ticket.id ticket.ticket_id
  if !truthyStr ticketId? then
    (noViolation, store)
  else
    let ticketId := ticketId?.getD ""
    match effectiveSlaApplied ticket with
    | none => (noViolation, storeDelete store ticketId)
    | some slaApplied =>
      if !truthyStr slaApplied.sla_status then
        (noViolation, storeDelete store ticketId)
      else
        let currentStatus := slaApplied.sla_status.getD ""
        let history := histOf store ticketId
        let deadline := deadlineOf env ticket slaApplied
        let isPaused := isTicketPaused ticket now
        let stateUpdate := stateUpdateOf env now ticket slaApplied history
        let vs := detectViolation currentStatus isPaused deadline now history
        if vs.2 && truthyStr env.slaChannel then
          if dispatchOk then
            let entry := alertEntryOf vs.1 now deadline currentStatus
            let newState := { stateUpdate with alert_history := history ++ [entry] }
            ({ alerted := true, violationType := vs.1, deadline := deadline },
             storeSet store ticketId newState)
          else
            ({ alerted := vs.2 && truthyStr env.slaChannel,
               violationType := vs.1, deadline := deadline },
             storeSet store ticketId stateUpdate)
        else
          ({ alerted := vs.2 && truthyStr env.slaChannel,
             violationType := vs.1, deadline := deadline },
           storeSet store ticketId stateUpdate)

/-- The module's two persisted caches together (`slaStateCache` and
`assignmentTrackingCache`); `checkSLAStatus` reads and writes only the
first. -/
def checkSLAStatusSys (env : Env) (now : Nat) (dispatchOk : Bool)
    (ticket : Ticket) (caches : Store × AssignStore) :
    CheckResult × (Store × AssignStore) :=
  let (r, s') := checkSLAStatus env now dispatchOk ticket caches.1
  (r, (s', caches.2))

/-! ### Dashboard ticket view (`part_002` lines 620-677) -/

/-- The per-ticket view assembled by `getAllSLATickets`.  The two
`Math.floor` quantities derived from `now - assigned_at` may be negative in
JS, hence `Int`; `progress_percent` is a JS float modelled as an exact
rational. -/
structure DashTicket where
  ticket_id : String
  sla_name : String
  sla_status : String
  assigned_at : Option Nat
  deadline : Option Nat
  remaining_seconds : Option Nat
  remaining_minutes : Option Nat
  is_overdue : Bool
  is_paused : Bool
  updated_at : Nat
  alert_count : Nat
  tags : List String
  has_unwarranted_tag : Bool
  assignee_name : Option String
  assignee_email : Option String
  ticket_subject : Option String
  ticket_state : Option String
  ticket_created_at : Option Nat
  time_since_assignment : Option Int
  time_since_assignment_minutes : Option Int
  progress_percent : Option ℚ
deriving DecidableEq

/-- One store entry rendered for the dashboard (`getAllSLATickets` loop body,
lines 624-666). -/
def dashTicketOf (now : Nat) (ticketId : String) (st : SLAState) : DashTicket :=
  let remaining : Option Nat :=
    if truthyNat st.deadline then some (st.deadline.getD 0 - now) else none
  let isOverdue := truthyNat st.deadline && decide (st.deadline.getD 0 < now)
  let minutesRemaining : Option Nat :=
    match remaining with
    | some r => if r == 0 then none else some (r / 60)
    | none => none
  let timeSinceAssignment : Option Int :=
    if truthyNat st.assigned_at then some ((now : Int) - (st.assigned_at.getD 0 : Int))
    else none
  let timeSinceAssignmentMinutes : Option Int :=
    match timeSinceAssignment with
    | some v => if v == 0 then none else some (v / 60)
    | none => none
  let progressPercent : Option ℚ :=
    if truthyNat st.deadline && truthyNat st.assigned_at then
      let totalDuration : Int := (st.deadline.getD 0 : Int) - (st.assigned_at.getD 0 : Int)
      let elapsed : Int := (now : Int) - (st.assigned_at.getD 0 : Int)
      if 0 < totalDuration then
        some (min 100 (max 0 (((elapsed : ℚ) / (totalDuration : ℚ)) * 100)))
      else none
    else none
  { ticket_id := ticketId
    sla_name := st.sla_name
    sla_status := st.sla_status
    assigned_at := st.assigned_at
    deadline := st.deadline
    remaining_seconds := remaining
    remaining_minutes := minutesRemaining
    is_overdue := isOverdue
    is_paused := st.is_paused
    updated_at := st.updated_at
    alert_count := st.alert_history.length
    tags := st.tags
    has_unwarranted_tag := st.has_unwarranted_tag
    assignee_name := jsNullifyStr st.assignee_name
    assignee_email := jsNullifyStr st.assignee_email
    ticket_subject := jsNullifyStr st.ticket_subject
    ticket_state := jsNullifyStr st.ticket_state
    ticket_created_at := jsNullifyNat st.ticket_created_at
    time_since_assignment := timeSinceAssignment
    time_since_assignment_minutes := timeSinceAssignmentMinutes
    progress_percent := progressPercent }

/-- Comparator of the deadline sort (lines 669-674) as a `≤`-style
predicate: a falsy deadline (`null` or `0`, via `!a.deadline`) sorts last,
equal keys keep their order. -/
def deadlineLE (a b : DashTicket) : Bool :=
  if !truthyNat a.deadline && !truthyNat b.deadline then true
  else if !truthyNat a.deadline then false
  else if !truthyNat b.deadline then true
  else decide (a.deadline.getD 0 ≤ b.deadline.getD 0)

/-- Stable insertion into a sorted list: `x` goes after every element `y`
with `le y x` (so equal keys keep insertion order, as in the stable JS
sort). -/
def insertLe {α : Type} (le : α → α → Bool) (x : α) : List α → List α
  | [] => [x]
  | y :: ys => if le y x then y :: insertLe le x ys else x :: y :: ys

/-- Stable insertion sort (the observable behaviour of the stable
`Array.prototype.sort`). -/
def stableSort {α : Type} (le : α → α → Bool) (l : List α) : List α :=
  l.foldl (fun acc x => insertLe le x acc) []

/-- Embedding of `getAllSLATickets` (`part_002` lines 620-677): render every
tracked record and sort by deadline (soonest first, null last). -/
def getAllSLATickets (store : Store) (now : Nat) : List DashTicket :=
  stableSort deadlineLE (store.map (fun p => dashTicketOf now p.1 p.2))

/-! ### Stats aggregator (`part_002` lines 687-800) -/

/-- Per-agent counters of the stats breakdown (lines 734-744). -/
structure AgentStat where
  total : Nat := 0
  total_assignments : Nat := 0
  hit : Nat := 0
  missed : Nat := 0
  active : Nat := 0
  overdue : Nat := 0
  unwarranted : Nat := 0
deriving DecidableEq

/-- Per-SLA-type counters (lines 771-782). -/
structure TypeStat where
  total : Nat := 0
  hit : Nat := 0
  missed : Nat := 0
  active : Nat := 0
  unwarranted : Nat := 0
deriving DecidableEq

/-- Upsert into a JS-object-like association list (keys keep insertion
order; an existing key is updated in place). -/
def objUpsert {β : Type} (m : List (String × β)) (k : String) (dflt : β)
    (f : β → β) : List (String × β) :=
  if (m.find? (fun p => p.1 == k)).isSome then
    m.map (fun p => if p.1 == k then (p.1, f p.2) else p)
  else
    m ++ [(k, f dflt)]

/-- The `allAssignmentsByAgent` counting pass (lines 719-727): assignment
records without an assignee name are skipped (`if (!assignment.assignee_name)
continue`). -/
def allAssignmentsByAgent (assignments : AssignStore) : List (String × Nat) :=
  assignments.foldl
    (fun m p =>
      if !truthyStr p.2.assignee_name then m
      else objUpsert m (p.2.assignee_name.getD "") 0 (· + 1))
    []

/-- The per-ticket update of an agent's counters (lines 745-750). -/
def bumpAgentStat (t : DashTicket) (a : AgentStat) : AgentStat :=
  { a with
    total := a.total + 1
    hit := a.hit + (if t.sla_status == "hit" then 1 else 0)
    missed := a.missed + (if t.sla_status == "missed" then 1 else 0)
    active := a.active + (if t.sla_status == "active" then 1 else 0)
    overdue := a.overdue + (if t.is_overdue then 1 else 0)
    unwarranted := a.unwarranted + (if t.has_unwarranted_tag then 1 else 0) }

/-- The agent-performance breakdown (lines 729-768): SLA tickets without an
assignee name are skipped (`if (!ticket.assignee_name) return`), then
agents that only have assignment counts are merged in. -/
def agentStatsOf (tickets : List DashTicket) (assignments : AssignStore) :
    List (String × AgentStat) :=
  let byAgent := allAssignmentsByAgent assignments
  let base := tickets.foldl
    (fun m t =>
      if !truthyStr t.assignee_name then m
      else
        let agent := t.assignee_name.getD ""
        objUpsert m agent
          { total_assignments := ((byAgent.find? (fun p => p.1 == agent)).map (·.2)).getD 0 }
          (bumpAgentStat t))
    []
  byAgent.foldl
    (fun m p =>
      if (m.find? (fun q => q.1 == p.1)).isSome then
        m.map (fun q => if q.1 == p.1 then (q.1, { q.2 with total_assignments := p.2 }) else q)
      else
        m ++ [(p.1, { total_assignments := p.2 })])
    base

/-- The per-SLA-type breakdown (lines 770-782). -/
def slaTypeStatsOf (tickets : List DashTicket) : List (String × TypeStat) :=
  tickets.foldl
    (fun m t =>
      objUpsert m t.sla_name {}
        (fun s => { s with
          total := s.total + 1
          hit := s.hit + (if t.sla_status == "hit" then 1 else 0)
          missed := s.missed + (if t.sla_status == "missed" then 1 else 0)
          active := s.active + (if t.sla_status == "active" then 1 else 0)
          unwarranted := s.unwarranted + (if t.has_unwarranted_tag then 1 else 0) }))
    []

/-- The stats summary (lines 784-799).  `hit_rate` models
`parseFloat(rate.toFixed(1))` as rounding to one decimal place;
`avg_response_time_minutes` models `Math.round` as round-half-up. -/
structure SLAStats where
  enabled : Bool
  channel : Option String
  total_tracked : Nat
  active : Nat
  missed : Nat
  hit : Nat
  overdue : Nat
  critical : Nat
  paused : Nat
  unwarranted : Nat
  hit_rate : ℚ
  avg_response_time_minutes : Option Int
  agent_stats : List (String × AgentStat)
  sla_type_stats : List (String × TypeStat)
deriving DecidableEq

/-- Embedding of `getSLAStats` (`part_002` lines 687-800) over an explicit
ticket list (the caller's filtered list or `getAllSLATickets`), the
assignment-tracking table and the `SLA_ALERT_CHANNEL` value. -/
def getSLAStats (tickets : List DashTicket) (assignments : AssignStore)
    (slaChannel : Option String) : SLAStats :=
  let active := (tickets.filter (fun t => t.sla_status == "active")).length
  let missed := (tickets.filter (fun t => t.sla_status == "missed")).length
  let hit := (tickets.filter (fun t => t.sla_status == "hit")).length
  let overdue := (tickets.filter (fun t => t.is_overdue && t.sla_status == "active")).length
  let paused := (tickets.filter (fun t => t.is_paused)).length
  let unwarranted := (tickets.filter (fun t => t.has_unwarranted_tag)).length
  let critical := (tickets.filter (fun t =>
    t.sla_status == "active" &&
    (match t.remaining_minutes with
     | some m => decide (m < 5)
     | none => false) &&
    !t.is_overdue)).length
  let validTickets := tickets.filter (fun t => !t.has_unwarranted_tag)
  let validHit := (validTickets.filter (fun t => t.sla_status == "hit")).length
  let hitRate : ℚ :=
    if validTickets.length > 0 then
      let raw : ℚ := ((validHit : ℚ) / (validTickets.length : ℚ)) * 100
      (round (raw * 10) : ℚ) / 10
    else 0
  let hitTickets := tickets.filter (fun t =>
    t.sla_status == "hit" && t.time_since_assignment_minutes.isSome)
  let avgResponseTime : Option Int :=
    if hitTickets.length > 0 then
      let total : Int := hitTickets.foldl
        (fun acc t => acc + t.time_since_assignment_minutes.getD 0) 0
      some (round ((total : ℚ) / (hitTickets.length : ℚ)))
    else none
  { enabled := truthyStr slaChannel
    channel := jsNullifyStr slaChannel
    total_tracked := tickets.length
    active := active
    missed := missed
    hit := hit
    overdue := overdue
    critical := critical
    paused := paused
    unwarranted := unwarranted
    hit_rate := hitRate
    avg_response_time_minutes := avgResponseTime
    agent_stats := agentStatsOf tickets assignments
    sla_type_stats := slaTypeStatsOf tickets }

/-! ## Shared helper lemmas -/

theorem contains_iff_mem {α : Type} [BEq α] [LawfulBEq α] {l : List α} {a : α} :
    l.contains a = true ↔ a ∈ l := by
  simp [List.contains, List.elem_iff]

theorem storeGet_map_set {s : Store} {k : String} {v : SLAState}
    (h : (s.find? (fun p => p.1 == k)).isSome = true) :
    storeGet (s.map (fun p => if p.1 == k then (k, v) else p)) k = some v := by
  induction s with
  | nil => simp at h
  | cons p t ih =>
    by_cases hp : p.1 = k
    · simp [storeGet, List.find?, hp]
    · have hp' : (p.1 == k) = false := by simp [hp]
      simp only [List.find?_cons, hp', cond_false] at h
      simpa [storeGet, List.find?, hp'] using ih h

theorem storeGet_append_self {s : Store} {k : String} {v : SLAState}
    (h : (s.find? (fun p => p.1 == k)).isSome = false) :
    storeGet (s ++ [(k, v)]) k = some v := by
  induction s with
  | nil => simp [storeGet, List.find?]
  | cons p t ih =>
    by_cases hp : p.1 = k
    · simp [List.find?_cons, hp] at h
    · have hp' : (p.1 == k) = false := by simp [hp]
      simp only [List.find?_cons, hp', cond_false] at h
      simpa [storeGet, List.find?_cons, hp'] using ih h

/-- Writing a record and reading it back. -/
theorem storeGet_set_self (s : Store) (k : String) (v : SLAState) :
    storeGet (storeSet s k v) k = some v := by
  unfold storeSet
  by_cases h : (s.find? (fun p => p.1 == k)).isSome
  · simp only [h, if_true]
    exact storeGet_map_set h
  · simp only [h, if_false]
    exact storeGet_append_self (by rwa [Bool.not_eq_true] at h)

/-- Deleting a record removes it. -/
theorem storeGet_delete_self (s : Store) (k : String) :
    storeGet (storeDelete s k) k = none := by
  unfold storeDelete
  induction s with
  | nil => rfl
  | cons p t ih =>
    by_cases hp : p.1 = k
    · have hp' : (!(p.1 == k)) = false := by simp [hp]
      simp only [List.filter_cons, hp', Bool.false_eq_true, if_false]
      exact ih
    · have hp' : (p.1 == k) = false := by simp [hp]
      unfold storeGet at ih ⊢
      simp only [List.filter_cons, hp', Bool.not_false, if_true, List.find?_cons, cond_false]
      exact ih

/-- A looked-up record is one of the store's entries. -/
theorem mem_of_storeGet {s : Store} {k : String} {v : SLAState}
    (h : storeGet s k = some v) : ∃ k', (k', v) ∈ s := by
  unfold storeGet at h
  rcases hf : s.find? (fun p => p.1 == k) with _ | p
  · rw [hf] at h; simp at h
  · rw [hf] at h
    simp only [Option.map_some'] at h
    exact ⟨p.1, by
      have := List.mem_of_find?_eq_some hf
      cases h
      simpa using this⟩

/-- Entries after an upsert: the new record or an old entry. -/
theorem mem_storeSet {s : Store} {k : String} {v : SLAState} {p : String × SLAState}
    (h : p ∈ storeSet s k v) : p = (k, v) ∨ p ∈ s := by
  unfold storeSet at h
  split at h
  · rcases List.mem_map.mp h with ⟨q, hq, hq'⟩
    by_cases hk : q.1 = k
    · left
      simpa [hk] using hq'.symm
    · right
      have : (q.1 == k) = false := by simp [hk]
      rw [this] at hq'
      simpa [← hq'] using hq
  · rcases List.mem_append.mp h with h | h
    · right; exact h
    · left; simpa using h

/-- Entries after a delete are old entries. -/
theorem mem_storeDelete {s : Store} {k : String} {p : String × SLAState}
    (h : p ∈ storeDelete s k) : p ∈ s :=
  List.mem_of_mem_filter h

/-- A fold whose step skips the elements failing `p` computes the same
result on the `p`-filtered list: the skipped elements contribute nothing. -/
theorem foldl_skip_filter {α β : Type} (g : β → α → β) (p : α → Bool) :
    ∀ (l : List α) (acc : β),
    l.foldl (fun m x => if !p x then m else g m x) acc =
    (l.filter p).foldl (fun m x => if !p x then m else g m x) acc := by
  intro l
  induction l with
  | nil => intro acc; rfl
  | cons x t ih =>
    intro acc
    by_cases hx : p x = true
    · have hx' : (!p x) = false := by simp [hx]
      simp only [List.foldl_cons, List.filter_cons, hx, if_true, hx',
        Bool.false_eq_true, if_false]
      exact ih _
    · have hx0 : p x = false := by rwa [Bool.not_eq_true] at hx
      have hx' : (!p x) = true := by simp [hx0]
      simp only [List.foldl_cons, List.filter_cons, hx0, Bool.false_eq_true,
        if_false, hx', if_true]
      exact ih acc

/-- Whether the snapshot (directly or through a linked conversation) carries
an SLA with a non-null status. -/
def effectiveHasStatus (t : Ticket) : Bool :=
  match effectiveSlaApplied t with
  | some sla => truthyStr sla.sla_status
  | none => false

/-- Unfolding of `checkSLAStatus` on a snapshot without a usable ticket id. -/
theorem checkSLAStatus_no_id (env : Env) (now : Nat) (dispatchOk : Bool)
    (ticket : Ticket) (store : Store)
    (hid : truthyStr (jsOrStr ticket.id ticket.ticket_id) = false) :
    checkSLAStatus env now dispatchOk ticket store = (noViolation, store) := by
  unfold checkSLAStatus
  simp [hid]

/-- Unfolding of `checkSLAStatus` on a snapshot without an effective SLA
status: the record is deleted and no violation is reported. -/
theorem checkSLAStatus_no_sla (env : Env) (now : Nat) (dispatchOk : Bool)
    (ticket : Ticket) (store : Store)
    (hid : truthyStr (jsOrStr ticket.id ticket.ticket_id) = true)
    (hnos : effectiveHasStatus ticket = false) :
    checkSLAStatus env now dispatchOk ticket store =
      (noViolation, storeDelete store ((jsOrStr ticket.id ticket.ticket_id).getD "")) := by
  unfold checkSLAStatus
  unfold effectiveHasStatus at hnos
  rcases hsla : effectiveSlaApplied ticket with _ | sla
  · simp [hid, hsla]
  · rw [hsla] at hnos
    change truthyStr sla.sla_status = false at hnos
    simp [hid, hsla, hnos]

/-- Uniform unfolding of `checkSLAStatus` on a snapshot with an effective
SLA status: the result is `(shouldAlert && channel, violationType,
deadline)` and the refreshed record is upserted, with the alert entry
appended exactly when a violation fired, a channel is configured and the
dispatch succeeded. -/
theorem checkSLAStatus_sla (env : Env) (now : Nat) (dispatchOk : Bool)
    (ticket : Ticket) (store : Store) (sla : SLAApplied)
    (hid : truthyStr (jsOrStr ticket.id ticket.ticket_id) = true)
    (hsla : effectiveSlaApplied ticket = some sla)
    (hstatus : truthyStr sla.sla_status = true) :
    checkSLAStatus env now dispatchOk ticket store =
      ({ alerted :=
           (detectViolation (sla.sla_status.getD "") (isTicketPaused ticket now)
             (deadlineOf env ticket sla) now
             (histOf store ((jsOrStr ticket.id ticket.ticket_id).getD ""))).2 &&
           truthyStr env.slaChannel,
         violationType :=
           (detectViolation (sla.sla_status.getD "") (isTicketPaused ticket now)
             (deadlineOf env ticket sla) now
             (histOf store ((jsOrStr ticket.id ticket.ticket_id).getD ""))).1,
         deadline := deadlineOf env ticket sla },
       storeSet store ((jsOrStr ticket.id ticket.ticket_id).getD "")
         { stateUpdateOf env now ticket sla
             (histOf store ((jsOrStr ticket.id ticket.ticket_id).getD "")) with
           alert_history :=
             if (detectViolation (sla.sla_status.getD "") (isTicketPaused ticket now)
                   (deadlineOf env ticket sla) now
                   (histOf store ((jsOrStr ticket.id ticket.ticket_id).getD ""))).2 &&
                truthyStr env.slaChannel && dispatchOk then
               histOf store ((jsOrStr ticket.id ticket.ticket_id).getD "") ++
                 [alertEntryOf
                   (detectViolation (sla.sla_status.getD "") (isTicketPaused ticket now)
                     (deadlineOf env ticket sla) now
                     (histOf store ((jsOrStr ticket.id ticket.ticket_id).getD ""))).1
                   now (deadlineOf env ticket sla) (sla.sla_status.getD "")]
             else histOf store ((jsOrStr ticket.id ticket.ticket_id).getD "") }) := by
  unfold checkSLAStatus
  simp only [hid, Bool.not_true, Bool.false_eq_true, if_false, hsla, hstatus]
  split
  · rename_i hA
    split
    · rename_i hD
      simp only [hA, hD, Bool.and_true, if_true]
    · rename_i hD
      have hD' : dispatchOk = false := by rwa [Bool.not_eq_true] at hD
      simp only [hA, hD', Bool.and_false, Bool.false_eq_true, if_false]
      rfl
  · rename_i hA
    have hA' := Bool.not_eq_true _ ▸ hA
    simp only [hA', Bool.false_eq_true, if_false, Bool.false_and]
    rfl

/-! ### Helper lemmas for the bounded searches of `business-hours.js` -/

theorem firstHitAux_eq_some {α : Type} {f : Nat → Option α} {a : α} :
    ∀ {n i j : Nat}, j < n → (∀ l, l < j → f (i + l) = none) → f (i + j) = some a →
    firstHitAux f i n = some a := by
  intro n
  induction n with
  | zero => intro i j hj; omega
  | succ n ih =>
    intro i j hj hnone hsome
    unfold firstHitAux
    cases j with
    | zero =>
      simp only [Nat.add_zero] at hsome
      rw [hsome]
    | succ j =>
      have h0 : f i = none := by simpa using hnone 0 (Nat.succ_pos j)
      rw [h0]
      refine ih (i := i + 1) (j := j) (by omega) (fun l hl => ?_) ?_
      · have := hnone (1 + l) (by omega)
        rwa [show i + (1 + l) = i + 1 + l by omega] at this
      · rwa [show i + (j + 1) = i + 1 + j by omega] at hsome

theorem firstHitAux_eq_some_elim {α : Type} {f : Nat → Option α} {a : α} :
    ∀ {n i : Nat}, firstHitAux f i n = some a →
    ∃ j, j < n ∧ f (i + j) = some a ∧ ∀ l, l < j → f (i + l) = none := by
  intro n
  induction n with
  | zero => intro i h; simp [firstHitAux] at h
  | succ n ih =>
    intro i h
    unfold firstHitAux at h
    rcases h0 : f i with _ | b
    · rw [h0] at h
      rcases ih h with ⟨j, hj, hsome, hnone⟩
      refine ⟨j + 1, by omega, ?_, ?_⟩
      · simpa [Nat.add_assoc, Nat.add_comm 1 j] using hsome
      · intro l hl
        cases l with
        | zero => simpa using h0
        | succ l =>
          simpa [Nat.add_assoc, Nat.add_comm 1 l] using hnone l (by omega)
    · rw [h0] at h
      exact ⟨0, Nat.succ_pos n, by simpa using h0.trans h, fun l hl => by omega⟩

theorem firstHitAux_isSome {α : Type} {f : Nat → Option α} {n j : Nat}
    (hj : j < n) (hsome : (f j).isSome = true) :
    (firstHitAux f 0 n).isSome = true := by
  rcases ho : firstHitAux f 0 n with _ | a
  · exfalso
    have hnone : ∀ {m i : Nat}, firstHitAux f i m = none →
        ∀ l, l < m → f (i + l) = none := by
      intro m
      induction m with
      | zero => intro i _ l hl; omega
      | succ m ih =>
        intro i h l hl
        unfold firstHitAux at h
        rcases h0 : f i with _ | b
        · rw [h0] at h
          cases l with
          | zero => simpa using h0
          | succ l =>
            simpa [Nat.add_assoc, Nat.add_comm 1 l] using ih h l (by omega)
        · rw [h0] at h
          cases h
    have := hnone ho j hj
    simp only [Nat.zero_add] at this
    rw [this] at hsome
    cases hsome
  · rfl

/-- Every `Int.emod 7` weekday index maps back through `dayMap`. -/
theorem dayMap_weekdayName {w : Nat} (hw : w < 7) :
    dayMap (weekdayName w) = some w := by
  interval_cases w <;> rfl

/-- Decomposition of instants used throughout the UTC rendering proofs. -/
theorem int_day_decomp (D s : Int) (h0 : 0 ≤ s) (h1 : s < 86400) :
    (86400 * D + s) / 86400 = D ∧ (86400 * D + s) % 86400 = s := by
  omega

/-- Fields of the UTC rendering of `86400 * D + s` for an in-day offset
`s = h * 3600 + m * 60`. -/
theorem utcFull_fields (dateOf : Int → Int × Nat × Nat) (D : Int) (h m : Nat)
    (hh : h < 24) (hm : m < 60) :
    utcFull dateOf (86400 * D + ((h : Int) * 3600 + (m : Int) * 60)) =
      { year := (dateOf D).1, month := (dateOf D).2.1, day := (dateOf D).2.2,
        hour := h, minute := m,
        weekday := weekdayName (((D + 4) % 7).toNat) } := by
  have hs0 : (0 : Int) ≤ (h : Int) * 3600 + (m : Int) * 60 := by positivity
  have hs1 : (h : Int) * 3600 + (m : Int) * 60 < 86400 := by
    have : (h : Int) ≤ 23 := by exact_mod_cast Nat.le_of_lt_succ hh
    have : (m : Int) ≤ 59 := by exact_mod_cast Nat.le_of_lt_succ hm
    omega
  obtain ⟨hdiv, hmod⟩ := int_day_decomp D _ hs0 hs1
  unfold utcFull
  simp only [hdiv, hmod, RenderedFull.mk.injEq, true_and, and_true]
  refine ⟨?_, ?_⟩ <;> omega

/-- Unfolding of the UTC rendering into its raw field values. -/
theorem utcFull_eval (dateOf : Int → Int × Nat × Nat) (t : Int) :
    utcFull dateOf t =
      { year := (dateOf (t / 86400)).1, month := (dateOf (t / 86400)).2.1,
        day := (dateOf (t / 86400)).2.2, hour := (t % 86400).toNat / 3600,
        minute := (t % 86400).toNat % 3600 / 60,
        weekday := weekdayName (((t / 86400 + 4) % 7).toNat) } := rfl

/-- For a UTC rendering with an injective date encoding, phase 1 of the
candidate search succeeds at offset 0: the returned instant is the target
clock time on the reference date's UTC day. -/
theorem findUTCPhase1_utc (dateOf : Int → Int × Nat × Nat)
    (hinj : Function.Injective dateOf) (ref : Int) (sh sm : Nat)
    (hsh : sh < 24) (hsm : sm < 60) :
    findUTCPhase1 (utcFull dateOf) ref sh sm =
      some (86400 * (ref / 86400) + ((sh : Int) * 3600 + (sm : Int) * 60)) := by
  have hDS : dayStart ref = 86400 * (ref / 86400) := by
    unfold dayStart
    omega
  have hshI : (sh : Int) < 24 := by exact_mod_cast hsh
  have hsmI : (sm : Int) < 60 := by exact_mod_cast hsm
  unfold findUTCPhase1
  apply firstHitAux_eq_some (n := 25) (i := 0) (j := 12) (by norm_num)
  · intro l hl
    simp only [Nat.zero_add]
    have hlI : (l : Int) < 12 := by exact_mod_cast hl
    have hl0 : (0 : Int) ≤ (l : Int) := Int.natCast_nonneg l
    set tD : Int := dayStart ref + ((sh : Int) + ((l : Int) - 12)) * 3600 +
      (sm : Int) * 60 with htD
    have h1 : tD = 86400 * (ref / 86400) +
        (((sh : Int) + (l : Int) - 12) * 3600 + (sm : Int) * 60) := by
      rw [htD, hDS]
      ring
    by_cases hsl : (sh : Int) + (l : Int) < 12
    · -- candidate falls on the previous UTC day: the rendered date differs
      have hdiv : tD / 86400 = ref / 86400 - 1 := by omega
      have hda : dateOf (ref / 86400 - 1) ≠ dateOf (ref / 86400) := by
        intro hEq
        have := hinj hEq
        omega
      rw [utcFull_eval, utcFull_eval, hdiv]
      have hcond : ((dateOf (ref / 86400 - 1)).1 == (dateOf (ref / 86400)).1 &&
          (dateOf (ref / 86400 - 1)).2.1 == (dateOf (ref / 86400)).2.1 &&
          (dateOf (ref / 86400 - 1)).2.2 == (dateOf (ref / 86400)).2.2 &&
          ((tD % 86400).toNat / 3600 == sh) &&
          ((tD % 86400).toNat % 3600 / 60 == sm)) = false := by
        rcases Bool.eq_false_or_eq_true ((dateOf (ref / 86400 - 1)).1 ==
            (dateOf (ref / 86400)).1 &&
            (dateOf (ref / 86400 - 1)).2.1 == (dateOf (ref / 86400)).2.1 &&
            (dateOf (ref / 86400 - 1)).2.2 == (dateOf (ref / 86400)).2.2 &&
            ((tD % 86400).toNat / 3600 == sh) &&
            ((tD % 86400).toNat % 3600 / 60 == sm)) with hc | hc
      -- note: the `false` branch is the goal itself
        · simp only [Bool.and_eq_true, beq_iff_eq] at hc
          exact absurd (Prod.ext hc.1.1.1.1 (Prod.ext hc.1.1.1.2 hc.1.1.2)) hda
        · exact hc
      simp [hcond]
    · -- same UTC day but an earlier hour: the rendered hour differs
      have hdiv : tD / 86400 = ref / 86400 := by omega
      have hmod : (tD % 86400).toNat = ((sh + l : Nat) - 12) * 3600 + sm * 60 := by
        omega
      have hhour : (tD % 86400).toNat / 3600 = sh + l - 12 := by omega
      have hne : ¬(sh + l - 12 = sh) := by omega
      rw [utcFull_eval, utcFull_eval, hdiv, hhour]
      simp [hne]
  · simp only [Nat.zero_add]
    have h1 : dayStart ref + ((sh : Int) + (((12 : Nat) : Int) - 12)) * 3600 +
        (sm : Int) * 60 =
        86400 * (ref / 86400) + ((sh : Int) * 3600 + (sm : Int) * 60) := by
      rw [hDS]
      push_cast
      ring
    rw [h1, utcFull_fields dateOf (ref / 86400) sh sm hsh hsm, utcFull_eval]
    simp

/-- Composition of the three phases for the UTC rendering: phase 1 hits, so
`findUTCTimeForTimezoneTime` returns the target clock time on the
reference date's UTC day. -/
theorem findUTC_utc (dateOf : Int → Int × Nat × Nat)
    (hinj : Function.Injective dateOf) (ref : Int) (sh sm : Nat)
    (hsh : sh < 24) (hsm : sm < 60) :
    findUTCTimeForTimezoneTime (utcFull dateOf) ref sh sm =
      86400 * (ref / 86400) + ((sh : Int) * 3600 + (sm : Int) * 60) := by
  unfold findUTCTimeForTimezoneTime
  rw [findUTCPhase1_utc dateOf hinj ref sh sm hsh hsm]

/-- `dayMap` inverts `weekdayName` on every reduced weekday index. -/
theorem dayMap_weekdayName_mod (x : Int) :
    dayMap (weekdayName ((x % 7).toNat)) = some ((x % 7).toNat) := by
  have h7 : (x % 7).toNat < 7 := by omega
  exact dayMap_weekdayName h7

/-- A minute-aligned instant whose UTC rendering shows the start clock time
on a business weekday: its second-of-day is the start offset and its
weekday index is a business day. -/
theorem nextStart_match_decomp (dateOf : Int → Int × Nat × Nat)
    (cfg : BHConfig) {t : Int} (ht60 : t % 60 = 0)
    (hhour : (utcFull dateOf t).hour = cfg.startHours)
    (hmin : (utcFull dateOf t).minute = cfg.startMinutes)
    (hwd : ∃ d, dayMap ((utcFull dateOf t).weekday) = some d ∧ d ∈ cfg.businessDays) :
    t % 86400 = (cfg.startHours : Int) * 3600 + (cfg.startMinutes : Int) * 60 ∧
    ((t / 86400 + 4) % 7).toNat ∈ cfg.businessDays := by
  rcases hwd with ⟨d, hd, hdm⟩
  rw [utcFull_eval] at hhour hmin hd
  simp only at hhour hmin hd
  refine ⟨by omega, ?_⟩
  rw [dayMap_weekdayName_mod] at hd
  injection hd with hd
  rw [hd]
  exact hdm

/-- The instant `86400 * E + startSec` renders as the start clock time on
the weekday of day `E`. -/
theorem nextStart_candidate_props (dateOf : Int → Int × Nat × Nat)
    (cfg : BHConfig) (hsh : cfg.startHours < 24) (hsm : cfg.startMinutes < 60)
    (E : Int) (hwE : ((E + 4) % 7).toNat ∈ cfg.businessDays) :
    (86400 * E + ((cfg.startHours : Int) * 3600 + (cfg.startMinutes : Int) * 60)) % 60 = 0 ∧
    (utcFull dateOf (86400 * E +
      ((cfg.startHours : Int) * 3600 + (cfg.startMinutes : Int) * 60))).hour = cfg.startHours ∧
    (utcFull dateOf (86400 * E +
      ((cfg.startHours : Int) * 3600 + (cfg.startMinutes : Int) * 60))).minute = cfg.startMinutes ∧
    ∃ d, dayMap ((utcFull dateOf (86400 * E +
      ((cfg.startHours : Int) * 3600 + (cfg.startMinutes : Int) * 60))).weekday) = some d ∧
      d ∈ cfg.businessDays := by
  rw [utcFull_fields dateOf E cfg.startHours cfg.startMinutes hsh hsm]
  have hdiv : (86400 * E + ((cfg.startHours : Int) * 3600 +
      (cfg.startMinutes : Int) * 60)) % 60 = 0 := by omega
  exact ⟨hdiv, rfl, rfl, ⟨((E + 4) % 7).toNat, dayMap_weekdayName_mod _, hwE⟩⟩

/-- Unfolding of `getNextBusinessHoursStart` for the UTC rendering: the
today-at-start branch versus the bounded day scan. -/
theorem getNextBusinessHoursStart_utc_unfold (dateOf : Int → Int × Nat × Nat)
    (cfg : BHConfig) (now : Int) :
    getNextBusinessHoursStart cfg (utcFull dateOf) now =
      (if cfg.businessDays.contains ((now / 86400 + 4) % 7).toNat &&
          decide ((now % 86400).toNat / 3600 * 60 + (now % 86400).toNat % 3600 / 60 <
            cfg.startHours * 60 + cfg.startMinutes) then
        findUTCTimeForTimezoneTime (utcFull dateOf) now cfg.startHours cfg.startMinutes
      else
        match firstHitAux (fun i =>
          if cfg.businessDays.contains
              (((now + ((i : Int) + 1) * 86400) / 86400 + 4) % 7).toNat then
            some (now + ((i : Int) + 1) * 86400)
          else none) 0 13 with
        | some futureDate =>
          findUTCTimeForTimezoneTime (utcFull dateOf) futureDate
            cfg.startHours cfg.startMinutes
        | none => now + 86400) := by
  unfold getNextBusinessHoursStart
  simp only [utcFull_eval, dayMap_weekdayName_mod]

/-- The next-start instant for the UTC rendering is the first minute-aligned
instant strictly after `now` whose rendering shows the start clock time on
a business weekday. -/
theorem nextStart_utc_first (dateOf : Int → Int × Nat × Nat)
    (hinj : Function.Injective dateOf) (cfg : BHConfig) (now : Int)
    (hdays : ∀ d ∈ cfg.businessDays, d < 7) (hne : cfg.businessDays ≠ [])
    (hsh : cfg.startHours < 24) (hsm : cfg.startMinutes < 60) :
    now < getNextBusinessHoursStart cfg (utcFull dateOf) now ∧
    getNextBusinessHoursStart cfg (utcFull dateOf) now % 60 = 0 ∧
    (utcFull dateOf (getNextBusinessHoursStart cfg (utcFull dateOf) now)).hour =
      cfg.startHours ∧
    (utcFull dateOf (getNextBusinessHoursStart cfg (utcFull dateOf) now)).minute =
      cfg.startMinutes ∧
    (∃ d, dayMap ((utcFull dateOf
        (getNextBusinessHoursStart cfg (utcFull dateOf) now)).weekday) = some d ∧
      d ∈ cfg.businessDays) ∧
    ∀ t : Int, now < t → t % 60 = 0 →
      (utcFull dateOf t).hour = cfg.startHours →
      (utcFull dateOf t).minute = cfg.startMinutes →
      (∃ d, dayMap ((utcFull dateOf t).weekday) = some d ∧ d ∈ cfg.businessDays) →
      getNextBusinessHoursStart cfg (utcFull dateOf) now ≤ t := by
  have hunf := getNextBusinessHoursStart_utc_unfold dateOf cfg now
  by_cases hc : (cfg.businessDays.contains ((now / 86400 + 4) % 7).toNat &&
      decide ((now % 86400).toNat / 3600 * 60 + (now % 86400).toNat % 3600 / 60 <
        cfg.startHours * 60 + cfg.startMinutes)) = true
  · -- today is a business day and the start time has not passed
    have hr : getNextBusinessHoursStart cfg (utcFull dateOf) now =
        86400 * (now / 86400) +
          ((cfg.startHours : Int) * 3600 + (cfg.startMinutes : Int) * 60) := by
      rw [hunf, if_pos hc, findUTC_utc dateOf hinj now _ _ hsh hsm]
    simp only [Bool.and_eq_true, decide_eq_true_eq] at hc
    obtain ⟨hcw, hcur⟩ := hc
    have hwmem : ((now / 86400 + 4) % 7).toNat ∈ cfg.businessDays :=
      contains_iff_mem.mp hcw
    obtain ⟨h60, hhr, hmr, hwr⟩ :=
      nextStart_candidate_props dateOf cfg hsh hsm (now / 86400) hwmem
    rw [hr]
    refine ⟨?_, h60, hhr, hmr, hwr, ?_⟩
    · omega
    · intro t ht ht60 hth htm htw
      obtain ⟨hts, htwm⟩ := nextStart_match_decomp dateOf cfg ht60 hth htm htw
      omega
  · -- scan forward for the next business day
    have hc' := Bool.not_eq_true _ ▸ hc
    obtain ⟨d0, hd0mem⟩ := List.exists_mem_of_ne_nil cfg.businessDays hne
    have hd07 : d0 < 7 := hdays d0 hd0mem
    have hk : ∃ k : Int, 1 ≤ k ∧ k ≤ 7 ∧ (now / 86400 + k + 4) % 7 = (d0 : Int) := by
      refine ⟨((d0 : Int) - (now / 86400 + 4) % 7 - 1) % 7 + 1, ?_, ?_, ?_⟩ <;> omega
    obtain ⟨k, hk1, hk7, hkw⟩ := hk
    have hscanSome : (firstHitAux (fun i =>
        if cfg.businessDays.contains
            (((now + ((i : Int) + 1) * 86400) / 86400 + 4) % 7).toNat then
          some (now + ((i : Int) + 1) * 86400)
        else none) 0 13).isSome = true := by
      apply firstHitAux_isSome (j := (k - 1).toNat) (by omega)
      rw [show (now + (((((k - 1).toNat) : Nat) : Int) + 1) * 86400) / 86400 + 4 =
        now / 86400 + k + 4 by omega, hkw]
      rw [show ((d0 : Int)).toNat = d0 by omega]
      rw [contains_iff_mem.mpr hd0mem]
      rfl
    rcases hscan : firstHitAux (fun i =>
        if cfg.businessDays.contains
            (((now + ((i : Int) + 1) * 86400) / 86400 + 4) % 7).toNat then
          some (now + ((i : Int) + 1) * 86400)
        else none) 0 13 with _ | fut
    · rw [hscan] at hscanSome
      cases hscanSome
    · obtain ⟨j, hj13, hgj, hgl⟩ := firstHitAux_eq_some_elim hscan
      simp only [Nat.zero_add] at hgj hgl
      by_cases hcj : cfg.businessDays.contains
          (((now + ((j : Int) + 1) * 86400) / 86400 + 4) % 7).toNat = true
      case neg =>
        rw [if_neg (by simpa using hcj)] at hgj
        cases hgj
      case pos =>
        rw [if_pos hcj] at hgj
        have hfut : fut = now + ((j : Int) + 1) * 86400 := by
          injection hgj with h
          exact h.symm
        have hfdiv : fut / 86400 = now / 86400 + ((j : Int) + 1) := by omega
        have hr : getNextBusinessHoursStart cfg (utcFull dateOf) now =
            86400 * (now / 86400 + ((j : Int) + 1)) +
              ((cfg.startHours : Int) * 3600 + (cfg.startMinutes : Int) * 60) := by
          rw [hunf, if_neg (by rw [hc']; exact Bool.false_ne_true), hscan]
          show findUTCTimeForTimezoneTime (utcFull dateOf) fut
            cfg.startHours cfg.startMinutes = _
          rw [findUTC_utc dateOf hinj fut _ _ hsh hsm, hfdiv]
        have hwmem : ((now / 86400 + ((j : Int) + 1) + 4) % 7).toNat ∈
            cfg.businessDays := by
          have : (now + ((j : Int) + 1) * 86400) / 86400 + 4 =
              now / 86400 + ((j : Int) + 1) + 4 := by omega
          rw [this] at hcj
          exact contains_iff_mem.mp hcj
        obtain ⟨h60, hhr, hmr, hwr⟩ :=
          nextStart_candidate_props dateOf cfg hsh hsm
            (now / 86400 + ((j : Int) + 1)) hwmem
        rw [hr]
        refine ⟨by omega, h60, hhr, hmr, hwr, ?_⟩
        intro t ht ht60 hth htm htw
        obtain ⟨hts, htwm⟩ := nextStart_match_decomp dateOf cfg ht60 hth htm htw
        -- let E be the day of t; E is at least today's day
        have hE : now / 86400 ≤ t / 86400 := by omega
        rcases eq_or_lt_of_le hE with hE0 | hE1
        · -- t would be today at start time, contradicting the branch condition
          exfalso
          have hwt : ((now / 86400 + 4) % 7).toNat ∈ cfg.businessDays := by
            rw [show now / 86400 = t / 86400 from hE0]
            exact htwm
          have hcontains : cfg.businessDays.contains ((now / 86400 + 4) % 7).toNat =
              true := contains_iff_mem.mpr hwt
          have hcurlt : (now % 86400).toNat / 3600 * 60 +
              (now % 86400).toNat % 3600 / 60 <
              cfg.startHours * 60 + cfg.startMinutes := by omega
          rw [hcontains] at hc'
          simp only [Bool.true_and, decide_eq_false_iff_not] at hc'
          omega
        · -- t is on a later day; it cannot precede the first business day found
          have hEj : now / 86400 + ((j : Int) + 1) ≤ t / 86400 := by
            by_contra hlt
            push_neg at hlt
            have hl0 : 0 ≤ t / 86400 - now / 86400 - 1 := by omega
            set l : Nat := (t / 86400 - now / 86400 - 1).toNat with hldef
            have hlI : (l : Int) = t / 86400 - now / 86400 - 1 := by omega
            have hlj : l < j := by omega
            have hnone := hgl l hlj
            have hld : (now + ((l : Int) + 1) * 86400) / 86400 + 4 =
                t / 86400 + 4 := by omega
            have hcl : cfg.businessDays.contains
                (((now + ((l : Int) + 1) * 86400) / 86400 + 4) % 7).toNat = true := by
              rw [hld]
              exact contains_iff_mem.mpr htwm
            rw [if_pos hcl] at hnone
            cases hnone
          omega

/-! ## Claim theorems -/

theorem calculateDeadline_eq (assignedAt slaDuration : Nat) (config : BHConfig) :
    calculateDeadline assignedAt slaDuration config = assignedAt + slaDuration := by
  unfold calculateDeadline
  split <;> rfl

/-- C6: for every assignment instant, duration and calendar configuration,
the computed deadline is `assignedAt + duration`; the calendar has no
influence (no business-hours weighting). -/
theorem calculateDeadline_naive_add (assignedAt slaDuration : Nat)
    (config : BHConfig) :
    calculateDeadline assignedAt slaDuration config = assignedAt + slaDuration :=
  calculateDeadline_eq assignedAt slaDuration config

/-- C5: for the UTC rendering (over any injective calendar-date encoding),
`getNextBusinessHoursStart` returns the first minute-aligned instant
strictly after the call instant whose civil rendering equals the start
time on a business-day date; in particular, for the Mon-Fri 09:00-17:00
UTC calendar called at 18:00 UTC on Friday 1970-01-02 (instant 151200) it
returns 09:00 UTC on the following Monday 1970-01-05 (instant 378000),
through the bounded day scan and the UTC-offset candidate search. -/
theorem nextBusinessHoursStart_spec :
    (∀ dateOf : Int → Int × Nat × Nat, Function.Injective dateOf →
      ∀ (cfg : BHConfig) (now : Int),
        (∀ d ∈ cfg.businessDays, d < 7) → cfg.businessDays ≠ [] →
        cfg.startHours < 24 → cfg.startMinutes < 60 →
        now < getNextBusinessHoursStart cfg (utcFull dateOf) now ∧
        getNextBusinessHoursStart cfg (utcFull dateOf) now % 60 = 0 ∧
        (utcFull dateOf (getNextBusinessHoursStart cfg (utcFull dateOf) now)).hour =
          cfg.startHours ∧
        (utcFull dateOf (getNextBusinessHoursStart cfg (utcFull dateOf) now)).minute =
          cfg.startMinutes ∧
        (∃ d, dayMap ((utcFull dateOf
            (getNextBusinessHoursStart cfg (utcFull dateOf) now)).weekday) = some d ∧
          d ∈ cfg.businessDays) ∧
        ∀ t : Int, now < t → t % 60 = 0 →
          (utcFull dateOf t).hour = cfg.startHours →
          (utcFull dateOf t).minute = cfg.startMinutes →
          (∃ d, dayMap ((utcFull dateOf t).weekday) = some d ∧ d ∈ cfg.businessDays) →
          getNextBusinessHoursStart cfg (utcFull dateOf) now ≤ t)
    ∧ getNextBusinessHoursStart stdCal (utcFull civilFromDays) 151200 = 378000 :=
  ⟨fun dateOf hinj cfg now hdays hne hsh hsm =>
    nextStart_utc_first dateOf hinj cfg now hdays hne hsh hsm,
   by decide⟩

/-- Witness for C5: the general statement applied to a concrete injective
date encoding at Friday 18:00 UTC. -/
theorem nextBusinessHoursStart_spec_witness :
    (151200 : Int) <
      getNextBusinessHoursStart stdCal (utcFull (fun d => (d, 1, 1))) 151200 :=
  (nextBusinessHoursStart_spec.1 (fun d => (d, 1, 1))
    (fun _ _ h => congrArg Prod.fst h) stdCal 151200
    (by decide) (by decide) (by decide) (by decide)).1

/-- C10: a snapshot with neither `id` nor `ticket_id` produces the no-op
result and leaves both the SLA tracking cache and the assignment tracking
cache untouched. -/
theorem missing_id_frame (env : Env) (now : Nat) (dispatchOk : Bool)
    (ticket : Ticket) (caches : Store × AssignStore)
    (h1 : truthyStr ticket.id = false) (h2 : truthyStr ticket.ticket_id = false) :
    checkSLAStatusSys env now dispatchOk ticket caches = (noViolation, caches) := by
  have hid : truthyStr (jsOrStr ticket.id ticket.ticket_id) = false := by
    simp [jsOrStr, h1, h2]
  unfold checkSLAStatusSys
  rw [checkSLAStatus_no_id env now dispatchOk ticket caches.1 hid]

/-- Witness for C10 at a concrete snapshot with no identifiers. -/
theorem missing_id_frame_witness :
    checkSLAStatusSys { slaChannel := some "C042", slaDurations := none, bhConfig := stdCal }
      1700000000 true {} ([], []) = (noViolation, ([], [])) :=
  missing_id_frame _ _ _ _ _ rfl rfl

/-! Witness fixtures for the `checkSLAStatus` claims. -/

def wEnv : Env := { slaChannel := some "C042", slaDurations := none, bhConfig := stdCal }

def wSLA : SLAApplied := { sla_name := some "Next Response", sla_status := some "active" }

def wTicketNoSLA : Ticket := { ticket_id := some "t9" }

def wTicketSLA : Ticket :=
  { id := some "t1", sla_applied := some wSLA,
    statistics := some { first_assignment_at := some 1000 } }

def wRecord : SLAState :=
  { sla_status := "active", sla_name := "Next Response", assigned_at := some 1000,
    sla_duration := 300, deadline := some 1300, is_paused := false, updated_at := 900,
    alert_history := [], tags := [], has_unwarranted_tag := false, assignee_name := none,
    assignee_email := none, ticket_subject := none, ticket_state := none,
    ticket_created_at := none }

/-- C3: after processing a snapshot with a usable ticket id, a tracking
record exists iff the snapshot carried a non-null SLA status — a no-SLA
snapshot deletes the record and reports no violation, an SLA snapshot
leaves a freshly written record (`updated_at = now`). -/
theorem record_exists_iff_sla (env : Env) (now : Nat) (dispatchOk : Bool)
    (ticket : Ticket) (store : Store)
    (hid : truthyStr (jsOrStr ticket.id ticket.ticket_id) = true) :
    (effectiveHasStatus ticket = false →
      (checkSLAStatus env now dispatchOk ticket store).1 = noViolation ∧
      storeGet (checkSLAStatus env now dispatchOk ticket store).2
        ((jsOrStr ticket.id ticket.ticket_id).getD "") = none) ∧
    (effectiveHasStatus ticket = true →
      ∃ st, storeGet (checkSLAStatus env now dispatchOk ticket store).2
        ((jsOrStr ticket.id ticket.ticket_id).getD "") = some st ∧
        st.updated_at = now) := by
  constructor
  · intro hnos
    rw [checkSLAStatus_no_sla env now dispatchOk ticket store hid hnos]
    exact ⟨rfl, storeGet_delete_self _ _⟩
  · intro hyes
    unfold effectiveHasStatus at hyes
    rcases hsla : effectiveSlaApplied ticket with _ | sla
    · rw [hsla] at hyes
      simp at hyes
    · rw [hsla] at hyes
      change truthyStr sla.sla_status = true at hyes
      rw [checkSLAStatus_sla env now dispatchOk ticket store sla hid hsla hyes]
      exact ⟨_, storeGet_set_self _ _ _, rfl⟩

/-- Witness for C3: a no-SLA snapshot deletes the existing record; an SLA
snapshot writes a fresh one. -/
theorem record_exists_iff_sla_witness :
    ((checkSLAStatus wEnv 1301 true wTicketNoSLA [("t9", wRecord)]).1 = noViolation ∧
      storeGet (checkSLAStatus wEnv 1301 true wTicketNoSLA [("t9", wRecord)]).2 "t9" = none) ∧
    (∃ st, storeGet (checkSLAStatus wEnv 1301 true wTicketSLA []).2 "t1" = some st ∧
      st.updated_at = 1301) :=
  ⟨(record_exists_iff_sla wEnv 1301 true wTicketNoSLA [("t9", wRecord)] (by decide)).1
      (by decide),
   (record_exists_iff_sla wEnv 1301 true wTicketSLA [] (by decide)).2 (by decide)⟩

/-- C7 counterexample: with operator overrides `FRT:900, NRT:600, TTC:86400`,
the name "FRT NRT" contains "nrt" but resolves to the FRT bucket (checked
first), returning 900 rather than the configured NRT duration 600; and with
overrides `FRT:600, NRT:700, TTC:800`, the unmatched name "Custom
Escalation" returns the hardcoded 300 s fallback, not the shortest
configured default 600. -/
theorem duration_resolver_counterexample :
    getSLADuration (some [("FRT", 900), ("NRT", 600), ("TTC", 86400)])
      { sla_name := some "FRT NRT", sla_status := some "active" } = 900 ∧
    (900 : Nat) ≠ 600 ∧
    getSLADuration (some [("FRT", 600), ("NRT", 700), ("TTC", 800)])
      { sla_name := some "Custom Escalation", sla_status := some "active" } = 300 ∧
    (300 : Nat) ≠ 600 := by
  refine ⟨by decide, by decide, by decide, by decide⟩

/-- C7 (amended): a name that reaches the NRT bucket — contains
"next response" or "nrt" but not "first response" or "frt", which the
chain checks first — resolves to the configured NRT duration; a name
matching no keyword bucket resolves to the hardcoded 300 s fallback (the
shortest of the three built-in defaults 300/300/86400, though not in
general the shortest operator-configured value). -/
theorem duration_resolver_amended :
    (∀ (items : List (String × Nat)) (sla : SLAApplied),
      strIncludes ((sla.sla_name.map strUpper).getD "") "FIRST RESPONSE" = false →
      strIncludes ((sla.sla_name.map strUpper).getD "") "FRT" = false →
      (strIncludes ((sla.sla_name.map strUpper).getD "") "NEXT RESPONSE" = true ∨
       strIncludes ((sla.sla_name.map strUpper).getD "") "NRT" = true) →
      getSLADuration (some items) sla =
        jsFalsyNat (objGet (items.map (fun p => (strUpper (strTrim p.1), p.2))) "NRT")
          (5 * 60))
    ∧ (∀ (items : List (String × Nat)) (sla : SLAApplied),
      strIncludes ((sla.sla_name.map strUpper).getD "") "FIRST RESPONSE" = false →
      strIncludes ((sla.sla_name.map strUpper).getD "") "FRT" = false →
      strIncludes ((sla.sla_name.map strUpper).getD "") "NEXT RESPONSE" = false →
      strIncludes ((sla.sla_name.map strUpper).getD "") "NRT" = false →
      strIncludes ((sla.sla_name.map strUpper).getD "") "CLOSE" = false →
      strIncludes ((sla.sla_name.map strUpper).getD "") "TTC" = false →
      strIncludes ((sla.sla_name.map strLower).getD "") "first response" = false →
      strIncludes ((sla.sla_name.map strLower).getD "") "frt" = false →
      strIncludes ((sla.sla_name.map strLower).getD "") "next response" = false →
      strIncludes ((sla.sla_name.map strLower).getD "") "nrt" = false →
      strIncludes ((sla.sla_name.map strLower).getD "") "close" = false →
      strIncludes ((sla.sla_name.map strLower).getD "") "ttc" = false →
      getSLADuration (some items) sla = 5 * 60)
    ∧ (∀ (sla : SLAApplied),
      strIncludes ((sla.sla_name.map strLower).getD "") "first response" = false →
      strIncludes ((sla.sla_name.map strLower).getD "") "frt" = false →
      strIncludes ((sla.sla_name.map strLower).getD "") "next response" = false →
      strIncludes ((sla.sla_name.map strLower).getD "") "nrt" = false →
      strIncludes ((sla.sla_name.map strLower).getD "") "close" = false →
      strIncludes ((sla.sla_name.map strLower).getD "") "ttc" = false →
      getSLADuration none sla = 5 * 60)
    ∧ 5 * 60 = min (5 * 60) (min (5 * 60) (24 * 60 * 60))
    ∧ getSLADuration (some [("FRT", 900), ("NRT", 600), ("TTC", 86400)])
        { sla_name := some "Next Response Time (NRT)", sla_status := some "active" } = 600 := by
  refine ⟨?_, ?_, ?_, by decide, by decide⟩
  · intro items sla h1 h2 h3
    unfold getSLADuration
    rcases h3 with h3 | h3 <;> simp [h1, h2, h3]
  · intro items sla h1 h2 h3 h4 h5 h6 g1 g2 g3 g4 g5 g6
    unfold getSLADuration
    simp [h1, h2, h3, h4, h5, h6, g1, g2, g3, g4, g5, g6]
  · intro sla g1 g2 g3 g4 g5 g6
    unfold getSLADuration
    simp [g1, g2, g3, g4, g5, g6]

/-- Witness for the amended C7 at concrete names and overrides. -/
theorem duration_resolver_amended_witness :
    getSLADuration (some [("NRT", 600)])
      { sla_name := some "Next Response", sla_status := some "active" } =
      jsFalsyNat (objGet ([("NRT", 600)].map
        (fun p => (strUpper (strTrim p.1), p.2))) "NRT") (5 * 60) ∧
    getSLADuration (some [("FRT", 600)])
      { sla_name := some "Mystery", sla_status := some "active" } = 5 * 60 ∧
    getSLADuration none { sla_name := some "Mystery", sla_status := some "active" } = 5 * 60 :=
  ⟨duration_resolver_amended.1 [("NRT", 600)] _ (by decide) (by decide) (Or.inl (by decide)),
   duration_resolver_amended.2.1 [("FRT", 600)] _ (by decide) (by decide) (by decide)
     (by decide) (by decide) (by decide) (by decide) (by decide) (by decide) (by decide)
     (by decide) (by decide),
   duration_resolver_amended.2.2.1 _ (by decide) (by decide) (by decide) (by decide)
     (by decide) (by decide)⟩

/-! C9: handling of records without an assignee name in the stats
aggregator. -/

/-- A tracked record with no assignee name and no deadline. -/
def c9Record : SLAState :=
  { sla_status := "active", sla_name := "First Response Time", assigned_at := none,
    sla_duration := 300, deadline := none, is_paused := false, updated_at := 450,
    alert_history := [], tags := [], has_unwarranted_tag := false, assignee_name := none,
    assignee_email := none, ticket_subject := none, ticket_state := none,
    ticket_created_at := none }

/-- C9 counterexample: a store holding one record without an assignee name
is counted in `total_tracked`, but the per-agent breakdown is empty — the
record is dropped from the breakdown, not rendered as an "unattributed"
bucket. -/
theorem stats_unattributed_counterexample :
    (getSLAStats (getAllSLATickets [("t1", c9Record)] 500) [] none).agent_stats = [] ∧
    (getSLAStats (getAllSLATickets [("t1", c9Record)] 500) [] none).total_tracked = 1 := by
  refine ⟨by decide, by decide⟩

/-- A tracked record identical in shape to `c9Record` but carrying an
assignee name, for the mixed-store instance. -/
def c9Named : SLAState :=
  { c9Record with assignee_name := some "Alice" }

/-- C9 (amended): for every store — mixed or not — a record lacking an
assignee name is omitted from the per-agent breakdown: removing the
nameless SLA records and nameless assignment records leaves `agent_stats`
unchanged (so nameless records contribute to no bucket, and in particular
to no "unattributed" bucket), while every record still counts toward the
fleet-wide `total_tracked`.  Concretely, a store with one named and one
nameless record yields a breakdown with only the named bucket and
`total_tracked = 2`; the computation is a total function, so records with
absent `deadline` or `assigneeName` never make it raise. -/
theorem stats_unattributed_amended (tickets : List DashTicket)
    (assignments : AssignStore) (ch : Option String) :
    (getSLAStats tickets assignments ch).agent_stats =
      (getSLAStats (tickets.filter (fun t => truthyStr t.assignee_name))
        (assignments.filter (fun p => truthyStr p.2.assignee_name)) ch).agent_stats ∧
    (getSLAStats tickets assignments ch).total_tracked = tickets.length ∧
    (getSLAStats (getAllSLATickets [("t1", c9Named), ("t2", c9Record)] 500)
        [] none).agent_stats =
      [("Alice", { total := 1, total_assignments := 0, hit := 0, missed := 0,
                   active := 1, overdue := 0, unwarranted := 0 })] ∧
    (getSLAStats (getAllSLATickets [("t1", c9Named), ("t2", c9Record)] 500)
        [] none).total_tracked = 2 := by
  refine ⟨?_, rfl, by decide, by decide⟩
  show agentStatsOf tickets assignments = agentStatsOf _ _
  have hA : allAssignmentsByAgent assignments =
      allAssignmentsByAgent
        (assignments.filter (fun p => truthyStr p.2.assignee_name)) := by
    unfold allAssignmentsByAgent
    exact foldl_skip_filter _ _ assignments []
  simp only [agentStatsOf]
  rw [← hA]
  congr 1
  exact foldl_skip_filter _ _ tickets []

/-! C2: the alert-history dedup invariant. -/

/-- The dedup invariant on one record's alert history: no two
`deadline_violation` entries share a deadline, and no two
`status_missed` entries both carry status `missed`. -/
def histOK (h : List AlertEntry) : Prop :=
  h.Pairwise (fun a b =>
    ¬(a.type = "deadline_violation" ∧ b.type = "deadline_violation" ∧
      a.deadline = b.deadline)) ∧
  h.Pairwise (fun a b =>
    ¬(a.type = "status_missed" ∧ a.status = "missed" ∧
      b.type = "status_missed" ∧ b.status = "missed"))

/-- The invariant over the whole SLA tracking store. -/
def storeOK (s : Store) : Prop :=
  ∀ p ∈ s, histOK p.2.alert_history

/-- One `checkSLAStatus` call of a polling pass: the observed snapshot, the
wall-clock second, and the dispatch outcome. -/
structure CallInput where
  ticket : Ticket
  now : Nat
  dispatchOk : Bool

/-- A sequence of `checkSLAStatus` calls threaded through the store. -/
def runChecks (env : Env) (calls : List CallInput) (s : Store) : Store :=
  calls.foldl (fun st c => (checkSLAStatus env c.now c.dispatchOk c.ticket st).2) s

theorem histOK_nil : histOK [] := ⟨List.Pairwise.nil, List.Pairwise.nil⟩

theorem histOK_histOf {s : Store} (hS : storeOK s) (k : String) :
    histOK (histOf s k) := by
  unfold histOf
  rcases hg : storeGet s k with _ | v
  · exact histOK_nil
  · rcases mem_of_storeGet hg with ⟨k', hk'⟩
    exact hS _ hk'

/-- What a fired violation implies: either rule A fired on a `missed` status
with no prior `status_missed`/`missed` entry, or rule B fired on an
`active` status with no prior `deadline_violation` entry at this
deadline. -/
theorem detectViolation_eq_cases {cs : String} {ip : Bool} {dl : Option Nat}
    {now : Nat} {h : List AlertEntry} {vt : Option String}
    (hv : detectViolation cs ip dl now h = (vt, true)) :
    (vt = some "status_missed" ∧ cs = "missed" ∧
      (h.any fun a => a.type == "status_missed" && a.status == "missed") = false) ∨
    (vt = some "deadline_violation" ∧ cs = "active" ∧
      (h.any fun a => a.type == "deadline_violation" && a.deadline == dl) = false) := by
  have hsnd : ∀ {p q : Option String × Bool}, p = q → p.2 = q.2 :=
    fun hpq => congrArg Prod.snd hpq
  simp only [detectViolation] at hv
  split at hv
  · rename_i hB
    split at hv
    · rename_i hBn
      right
      refine ⟨by simpa using (congrArg Prod.fst hv).symm, ?_, ?_⟩
      · simp only [Bool.and_eq_true, beq_iff_eq] at hB
        exact hB.1.1.2
      · rwa [Bool.not_eq_eq_eq_not, Bool.not_true] at hBn
    · split at hv
      · rename_i hA
        left
        refine ⟨by simpa using (congrArg Prod.fst hv).symm, ?_, ?_⟩
        · simp only [Bool.and_eq_true, beq_iff_eq] at hA
          exact hA.1
        · simp only [Bool.and_eq_true, beq_iff_eq, Bool.not_eq_true'] at hA
          exact hA.2
      · exact absurd (hsnd hv) (by simp)
  · split at hv
    · rename_i hA
      left
      refine ⟨by simpa using (congrArg Prod.fst hv).symm, ?_, ?_⟩
      · simp only [Bool.and_eq_true, beq_iff_eq] at hA
        exact hA.1
      · simp only [Bool.and_eq_true, beq_iff_eq, Bool.not_eq_true'] at hA
        exact hA.2
    · exact absurd (hsnd hv) (by simp)

/-- Appending a deduplicated alert entry preserves the invariant. -/
theorem histOK_append {h : List AlertEntry} (hOK : histOK h) {e : AlertEntry}
    (he : (e.type = "status_missed" ∧ e.status = "missed" ∧
            (h.any fun a => a.type == "status_missed" && a.status == "missed") = false) ∨
          (e.type = "deadline_violation" ∧
            (h.any fun a => a.type == "deadline_violation" && a.deadline == e.deadline) = false)) :
    histOK (h ++ [e]) := by
  have hanyf : ∀ (p : AlertEntry → Bool), (h.any p = false) →
      ∀ a ∈ h, p a = false := by
    intro p hp a ha
    rcases Bool.eq_false_or_eq_true (p a) with h' | h'
    · exact absurd (List.any_eq_true.mpr ⟨a, ha, h'⟩) (by simp [hp])
    · exact h'
  constructor
  · rw [List.pairwise_append]
    refine ⟨hOK.1, List.pairwise_singleton _ _, ?_⟩
    intro a ha b hb
    simp only [List.mem_singleton] at hb
    subst hb
    rcases he with ⟨het, _, _⟩ | ⟨het, hno⟩
    · rintro ⟨-, hbt, -⟩
      rw [het] at hbt
      exact absurd hbt (by decide)
    · rintro ⟨hat, -, had⟩
      have := hanyf _ hno a ha
      simp only [Bool.and_eq_false_iff, beq_eq_false_iff_ne] at this
      rcases this with h' | h'
      · exact h' hat
      · exact h' had
  · rw [List.pairwise_append]
    refine ⟨hOK.2, List.pairwise_singleton _ _, ?_⟩
    intro a ha b hb
    simp only [List.mem_singleton] at hb
    subst hb
    rcases he with ⟨het, hes, hno⟩ | ⟨het, -⟩
    · rintro ⟨hat, has, -, -⟩
      have := hanyf _ hno a ha
      simp only [Bool.and_eq_false_iff, beq_eq_false_iff_ne] at this
      rcases this with h' | h'
      · exact h' hat
      · exact h' has
    · rintro ⟨-, -, hbt, -⟩
      rw [het] at hbt
      exact absurd hbt (by decide)

/-- One `checkSLAStatus` call preserves the store invariant. -/
theorem storeOK_step (env : Env) (now : Nat) (dispatchOk : Bool) (ticket : Ticket)
    {s : Store} (hS : storeOK s) :
    storeOK (checkSLAStatus env now dispatchOk ticket s).2 := by
  by_cases hid : truthyStr (jsOrStr ticket.id ticket.ticket_id) = true
  · by_cases hes : effectiveHasStatus ticket = true
    · have hsla : ∃ sla, effectiveSlaApplied ticket = some sla ∧
          truthyStr sla.sla_status = true := by
        unfold effectiveHasStatus at hes
        rcases h' : effectiveSlaApplied ticket with _ | sla
        · rw [h'] at hes; simp at hes
        · rw [h'] at hes
          exact ⟨sla, rfl, hes⟩
      rcases hsla with ⟨sla, hsla, hstatus⟩
      rw [checkSLAStatus_sla env now dispatchOk ticket s sla hid hsla hstatus]
      intro p hp
      rcases mem_storeSet hp with rfl | hp'
      · show histOK _
        by_cases hc : ((detectViolation (sla.sla_status.getD "") (isTicketPaused ticket now)
              (deadlineOf env ticket sla) now
              (histOf s ((jsOrStr ticket.id ticket.ticket_id).getD ""))).2 &&
            truthyStr env.slaChannel && dispatchOk) = true
        · simp only [hc, if_true]
          have hv : (detectViolation (sla.sla_status.getD "") (isTicketPaused ticket now)
              (deadlineOf env ticket sla) now
              (histOf s ((jsOrStr ticket.id ticket.ticket_id).getD ""))).2 = true := by
            simp only [Bool.and_eq_true] at hc
            exact hc.1.1
          have hpair : detectViolation (sla.sla_status.getD "") (isTicketPaused ticket now)
              (deadlineOf env ticket sla) now
              (histOf s ((jsOrStr ticket.id ticket.ticket_id).getD "")) =
              ((detectViolation (sla.sla_status.getD "") (isTicketPaused ticket now)
                (deadlineOf env ticket sla) now
                (histOf s ((jsOrStr ticket.id ticket.ticket_id).getD ""))).1, true) := by
            rw [← hv]
          rcases detectViolation_eq_cases hpair with ⟨hv1, hv2, hv3⟩ | ⟨hv1, hv2, hv3⟩
          · refine histOK_append (histOK_histOf hS _) (Or.inl ?_)
            rw [hv1]
            exact ⟨rfl, hv2, hv3⟩
          · refine histOK_append (histOK_histOf hS _) (Or.inr ?_)
            rw [hv1]
            exact ⟨rfl, hv3⟩
        · rw [Bool.not_eq_true] at hc
          simp only [hc, Bool.false_eq_true, if_false]
          exact histOK_histOf hS _
      · exact hS p hp'
    · rw [Bool.not_eq_true] at hes
      rw [checkSLAStatus_no_sla env now dispatchOk ticket s hid hes]
      intro p hp
      exact hS p (mem_storeDelete hp)
  · rw [Bool.not_eq_true] at hid
    rw [checkSLAStatus_no_id env now dispatchOk ticket s hid]
    exact hS

/-- C2: starting from the empty store, after any sequence of
`checkSLAStatus` calls no record's alert history contains two
`deadline_violation` entries with the same deadline, nor two
`status_missed` entries with status `missed` — repeated processing of the
same snapshot appends at most one entry per dedup key. -/
theorem alert_history_dedup_invariant (env : Env) (calls : List CallInput) :
    storeOK (runChecks env calls []) := by
  have main : ∀ (cs : List CallInput) (s : Store), storeOK s →
      storeOK (runChecks env cs s) := by
    intro cs
    induction cs with
    | nil => intro s hs; exact hs
    | cons c rest ih =>
      intro s hs
      exact ih _ (storeOK_step env c.now c.dispatchOk c.ticket hs)
  exact main calls [] (by intro p hp; cases hp)

/-- C8: on every pass over a snapshot carrying an SLA status, the refreshed
record (status, deadline, pause flag, denormalized metadata) is persisted
under the ticket id, and the alert entry is appended to its history exactly
when a violation fired, an alert channel is configured and the dispatch
succeeded. -/
theorem persist_always_append_iff_dispatch (env : Env) (now : Nat)
    (dispatchOk : Bool) (ticket : Ticket) (store : Store) (sla : SLAApplied)
    (hid : truthyStr (jsOrStr ticket.id ticket.ticket_id) = true)
    (hsla : effectiveSlaApplied ticket = some sla)
    (hstatus : truthyStr sla.sla_status = true) :
    storeGet (checkSLAStatus env now dispatchOk ticket store).2
        ((jsOrStr ticket.id ticket.ticket_id).getD "") =
      some { stateUpdateOf env now ticket sla
               (histOf store ((jsOrStr ticket.id ticket.ticket_id).getD "")) with
             alert_history :=
               if (detectViolation (sla.sla_status.getD "") (isTicketPaused ticket now)
                     (deadlineOf env ticket sla) now
                     (histOf store ((jsOrStr ticket.id ticket.ticket_id).getD ""))).2 &&
                  truthyStr env.slaChannel && dispatchOk then
                 histOf store ((jsOrStr ticket.id ticket.ticket_id).getD "") ++
                   [alertEntryOf
                     (detectViolation (sla.sla_status.getD "") (isTicketPaused ticket now)
                       (deadlineOf env ticket sla) now
                       (histOf store ((jsOrStr ticket.id ticket.ticket_id).getD ""))).1
                     now (deadlineOf env ticket sla) (sla.sla_status.getD "")]
               else histOf store ((jsOrStr ticket.id ticket.ticket_id).getD "") } := by
  rw [checkSLAStatus_sla env now dispatchOk ticket store sla hid hsla hstatus]
  exact storeGet_set_self _ _ _

/-- C1: a snapshot with an active SLA assigned at `T` whose resolved
duration is 300s, not paused, processed at `now = T + 301` with an alert
channel configured, a successful dispatch, and no prior
`deadline_violation` entry for deadline `T + 300`, alerts with
`violationType = deadline_violation` and `deadline = T + 300`; an
immediately repeated call on the identical snapshot does not alert. -/
theorem deadline_violation_scenario (env : Env) (ticket : Ticket) (store : Store)
    (sla : SLAApplied) (T : Nat)
    (hid : truthyStr (jsOrStr ticket.id ticket.ticket_id) = true)
    (hsla : effectiveSlaApplied ticket = some sla)
    (hactive : sla.sla_status = some "active")
    (hdur : getSLADuration env.slaDurations sla = 300)
    (hT : getAssignmentTimestamp ticket = some T)
    (hTpos : 0 < T)
    (hpause : isTicketPaused ticket (T + 301) = false)
    (hchan : truthyStr env.slaChannel = true)
    (hhist : (histOf store ((jsOrStr ticket.id ticket.ticket_id).getD "")).any
        (fun a => a.type == "deadline_violation" && a.deadline == some (T + 300)) = false) :
    (checkSLAStatus env (T + 301) true ticket store).1 =
      { alerted := true, violationType := some "deadline_violation",
        deadline := some (T + 300) } ∧
    (checkSLAStatus env (T + 301) true ticket
        (checkSLAStatus env (T + 301) true ticket store).2).1.alerted = false := by
  have hstatus : truthyStr sla.sla_status = true := by rw [hactive]; rfl
  have hcs : sla.sla_status.getD "" = "active" := by rw [hactive]; rfl
  have hdl : deadlineOf env ticket sla = some (T + 300) := by
    unfold deadlineOf
    rw [hT, hdur]
    have ht : truthyNat (some T) = true := by
      have : ¬(T = 0) := by omega
      simp [truthyNat, this]
    simp [ht, calculateDeadline_eq]
  have e1 : (("active" : String) == "missed") = false := by decide
  have e2 : (("active" : String) == "active") = true := by decide
  have e3 : truthyNat (some (T + 300)) = true := by
    have : ¬(T + 300 = 0) := by omega
    simp [truthyNat, this]
  have h1 := checkSLAStatus_sla env (T + 301) true ticket store sla hid hsla hstatus
  rw [hcs, hpause, hdl] at h1
  set tid := (jsOrStr ticket.id ticket.ticket_id).getD "" with htid
  set H := histOf store tid with Hdef
  have hvs : detectViolation "active" false (some (T + 300)) (T + 301) H =
      (some "deadline_violation", true) := by
    unfold detectViolation
    simp only [e1, e2, e3, Bool.false_and, Bool.false_eq_true, if_false,
      Bool.not_false, Bool.true_and, Option.getD_some, hhist]
    have : decide (T + 300 < T + 301) = true := by simp
    simp [this]
  rw [hvs] at h1
  simp only [hchan, Bool.and_true, Bool.true_and, Bool.and_self, if_true] at h1
  constructor
  · rw [h1]
  · rw [h1]
    have hH2 : histOf (storeSet store tid
        { stateUpdateOf env (T + 301) ticket sla H with
          alert_history := H ++ [alertEntryOf (some "deadline_violation") (T + 301)
            (some (T + 300)) "active"] }) tid =
        H ++ [alertEntryOf (some "deadline_violation") (T + 301) (some (T + 300)) "active"] := by
      unfold histOf
      rw [storeGet_set_self]
      rfl
    have hhist2 : (H ++ [alertEntryOf (some "deadline_violation") (T + 301)
        (some (T + 300)) "active"]).any
        (fun a => a.type == "deadline_violation" && a.deadline == some (T + 300)) = true := by
      simp [List.any_append, alertEntryOf]
    have hvs2 : detectViolation "active" false (some (T + 300)) (T + 301)
        (H ++ [alertEntryOf (some "deadline_violation") (T + 301) (some (T + 300)) "active"]) =
        (none, false) := by
      unfold detectViolation
      simp only [e1, e2, e3, Bool.false_and, Bool.false_eq_true, if_false,
        Bool.not_false, Bool.true_and, Option.getD_some, hhist2, Bool.not_true]
      have : decide (T + 300 < T + 301) = true := by simp
      simp [this]
    have h2 := checkSLAStatus_sla env (T + 301) true ticket
      (storeSet store tid
        { stateUpdateOf env (T + 301) ticket sla H with
          alert_history := H ++ [alertEntryOf (some "deadline_violation") (T + 301)
            (some (T + 300)) "active"] }) sla hid hsla hstatus
    rw [hcs, hpause, hdl, hH2, hvs2] at h2
    rw [h2]
    simp

/-- Witness for C1 at a concrete active ticket one second past its
deadline. -/
theorem deadline_violation_scenario_witness :
    (checkSLAStatus wEnv 1301 true wTicketSLA []).1 =
      { alerted := true, violationType := some "deadline_violation",
        deadline := some 1300 } ∧
    (checkSLAStatus wEnv 1301 true wTicketSLA
        (checkSLAStatus wEnv 1301 true wTicketSLA []).2).1.alerted = false :=
  deadline_violation_scenario wEnv wTicketSLA [] wSLA 1000
    (by decide) (by decide) (by decide) (by decide) (by decide) (by decide)
    (by decide) (by decide) (by decide)

/-- Witness for C8: a violating pass with a configured channel and a
successful dispatch persists the refreshed record with the new
`deadline_violation` entry. -/
theorem persist_always_append_iff_dispatch_witness :
    storeGet (checkSLAStatus wEnv 1301 true wTicketSLA []).2 "t1" =
      some { stateUpdateOf wEnv 1301 wTicketSLA wSLA [] with
             alert_history :=
               [alertEntryOf (some "deadline_violation") 1301 (some 1300) "active"] } := by
  have h := persist_always_append_iff_dispatch wEnv 1301 true wTicketSLA [] wSLA
    (by decide) (by decide) (by decide)
  exact h.trans (by decide)

/-- C4: `isBusinessHours` returns true when the calendar is disabled or the
civil rendering failed; otherwise it is true iff the rendered weekday is a
configured business day and the clock time lies in `[startTime, endTime)`.
For the Mon-Fri 09:00-17:00 UTC calendar: Monday 08:59:59 is false, Monday
09:00:00 is true, Friday 16:59:59 is true, Friday 17:00:00 is false, and
every Saturday or Sunday instant is false (epoch day 4 = 1970-01-05 is a
Monday, day 1 = 1970-01-02 a Friday). -/
theorem isBusinessHours_spec :
    (∀ (cfg : BHConfig) (r : Option RenderedClock), cfg.enabled = false →
      isBusinessHours cfg r = true)
    ∧ (∀ cfg : BHConfig, isBusinessHours cfg none = true)
    ∧ (∀ (cfg : BHConfig) (r : RenderedClock), cfg.enabled = true →
        (isBusinessHours cfg (some r) = true ↔
          ∃ d, dayMap r.weekday = some d ∧ d ∈ cfg.businessDays ∧
            cfg.startHours * 60 + cfg.startMinutes ≤ r.hour * 60 + r.minute ∧
            r.hour * 60 + r.minute < cfg.endHours * 60 + cfg.endMinutes))
    ∧ isBusinessHours stdCal (some (utcClock 377999)) = false
    ∧ isBusinessHours stdCal (some (utcClock 378000)) = true
    ∧ isBusinessHours stdCal (some (utcClock 147599)) = true
    ∧ isBusinessHours stdCal (some (utcClock 147600)) = false
    ∧ (∀ t : Nat, ((t / 86400 + 4) % 7 = 0 ∨ (t / 86400 + 4) % 7 = 6) →
        isBusinessHours stdCal (some (utcClock t)) = false) := by
  refine ⟨?_, ?_, ?_, by decide, by decide, by decide, by decide, ?_⟩
  · intro cfg r h
    simp [isBusinessHours, h]
  · intro cfg
    unfold isBusinessHours
    split <;> rfl
  · intro cfg r h
    simp only [isBusinessHours, h, Bool.not_true, Bool.false_eq_true, if_false]
    rcases hd : dayMap r.weekday with _ | d
    · simp
    · by_cases hc : cfg.businessDays.contains d
      · simp only [hc, Bool.not_true, Bool.false_eq_true, if_false]
        simp only [Bool.and_eq_true, decide_eq_true_eq]
        constructor
        · rintro ⟨h1, h2⟩
          exact ⟨d, rfl, (contains_iff_mem).mp hc, h1, h2⟩
        · rintro ⟨d', hd', hmem, h1, h2⟩
          cases hd'
          exact ⟨h1, h2⟩
      · simp only [hc, Bool.not_false, if_true]
        constructor
        · intro hfalse
          exact absurd hfalse (by simp)
        · rintro ⟨d', hd', hmem, -, -⟩
          cases hd'
          exact absurd ((contains_iff_mem).mpr hmem) hc
  · intro t h
    have hw : weekdayName ((t / 86400 + 4) % 7) = "Sunday" ∨
        weekdayName ((t / 86400 + 4) % 7) = "Saturday" := by
      rcases h with h | h <;> rw [h] <;> simp [weekdayName]
    unfold isBusinessHours utcClock stdCal
    rcases hw with hw | hw <;> simp [hw, dayMap]

/-- Witness for C4: the hypothesis-carrying conjuncts applied at concrete
inputs. -/
theorem isBusinessHours_spec_witness :
    isBusinessHours { stdCal with enabled := false } (some (utcClock 0)) = true
    ∧ (isBusinessHours stdCal (some (utcClock 378000)) = true ↔
        ∃ d, dayMap (utcClock 378000).weekday = some d ∧ d ∈ stdCal.businessDays ∧
          stdCal.startHours * 60 + stdCal.startMinutes ≤
            (utcClock 378000).hour * 60 + (utcClock 378000).minute ∧
          (utcClock 378000).hour * 60 + (utcClock 378000).minute <
            stdCal.endHours * 60 + stdCal.endMinutes)
    ∧ isBusinessHours stdCal (some (utcClock 259200)) = false :=
  ⟨isBusinessHours_spec.1 _ _ rfl,
   isBusinessHours_spec.2.2.1 stdCal (utcClock 378000) rfl,
   isBusinessHours_spec.2.2.2.2.2.2.2 259200 (by decide)⟩

end SLACore
